import Mathlib

/-!
yt-dd download manager: a shallow embedding

A shallow embedding of the concurrent download-task orchestration layer of
the yt-dd repository (`src/core/download_manager.py` together with the
parts of `src/core/downloader.py` it drives), with the theorems that settle
the frozen claims about it.

Modelling conventions, each matching a concrete fact of the source:

* **Lock granularity.** Every region of Python code executed while holding
  the manager's re-entrant lock (`self.lock`) is one atomic transition.
  The `DownloadManager` methods acquire the lock for their whole body, so
  each of them is one step; the worker function `_download_task` acquires
  and releases the lock several times, so it is split into one step per
  lock-protected region, with a per-task "worker phase" recording how far
  the worker thread has come.

* **Signal delivery.** PyQt invokes a signal connection whose receiver is a
  plain Python callable (here: the lambdas created in `add_task` that call
  `self._on_progress_updated` / `_on_error_occurred` / ... — `DownloadManager`
  is not a `QObject`) directly, in the emitting thread, like a
  `DirectConnection`.  Hence `VideoDownloader.cancel_download`'s
  `error_occurred.emit("下载已取消")` runs `_on_error_occurred` synchronously
  inside the caller of `pause_task`/`cancel_task`, under the (re-entrant)
  manager lock.  The manager's own outgoing signals (`task_paused`, ...) go
  to the UI and are modelled as an event trace.  Emitting is typed:
  `task_completed = pyqtSignal(str, str)`, and PyQt6 raises `TypeError`
  when an argument cannot be marshalled to its declared type — which
  `_download_task`'s success branch always hits, because it passes the
  `bool` that `VideoDownloader.download` returned as the `str` second
  argument.  The raise happens in the emitter before any delivery, so the
  event never enters the trace and the rest of the success branch (its
  logging and `task_done()`) never runs.

* **The scheduler's queue pop.** Inside `_process_tasks` the
  `waiting_queue.get(block=False)` at line 316 runs *outside*
  `self.lock`, so the pop is its own transition (`processPromotePop`,
  with the loop's local `task_id` variable as the `schedPopped` state
  component) and the lock-protected promotion block that consumes it
  (`processPromoteRun`) is a second one.  Between the two, the manager is
  in a state where a WAITING task sits in neither the queue nor the
  active list.

* **Heap.** `self.tasks` maps ids to *references* to mutable task records;
  `get_task` returns the reference and `get_all_tasks` returns
  `self.tasks.copy()`, a new dict holding the same references.  The model
  therefore separates the dict's key set (`taskIds`) from the heap of
  records (`records`); `remove_task` deletes the key but the record object
  (still referenced by `_download_task`'s local `task` variable or by dicts
  previously returned to callers) survives, which is why `records` is never
  deleted from.  Python's `uuid4` id freshness becomes the hypothesis
  `records id = none` on the `add` transition; ids are never reused.

* **External engine.** The body of `yt_dlp.YoutubeDL(...).download(...)` is
  outside the repository; its observable outcomes at the boundary of
  `VideoDownloader.download` (return normally, raise an exception with some
  message, or call the progress hook) are an oracle chosen by the step
  relation.  Everything else in `VideoDownloader.download`,
  `_progress_hook` and `cancel_download` is translated from the source.
  The global `YDL_INSTANCE` of `downloader.py` is assigned `None` at module
  load and never rebound anywhere in the repository, so the
  process-termination branch of `cancel_download` (`if YDL_INSTANCE:`) is
  dead code and only the `is_canceled` flag and the final
  `error_occurred.emit` are live.

* **Numbers and strings.** Progress percentages use `ℚ` (the source only
  ever stores exactly representable values such as `0.0` and `100.0` on
  the paths the claims mention); timestamps are bookkeeping-only and
  modelled as an inert `Nat`; Python tracebacks appended to error strings
  are abbreviated away, keeping the human-written prefix of each message.
  Inert option dictionaries (`ydl_opts`, `config`) carry no control flow
  that the manager observes and are not modelled as fields.
-/

namespace YtDd

/-- Task lifecycle states, from `TaskStatus` in `download_manager.py`. -/
inductive TaskStatus where
  | WAITING | ANALYZING | DOWNLOADING | PAUSED | COMPLETED | FAILED | CANCELED
deriving DecidableEq, Repr

/-- The numeric `.value` of each `TaskStatus` enum member (WAITING = 1, ...). -/
def TaskStatus.value : TaskStatus → Nat
  | .WAITING => 1
  | .ANALYZING => 2
  | .DOWNLOADING => 3
  | .PAUSED => 4
  | .COMPLETED => 5
  | .FAILED => 6
  | .CANCELED => 7

/-- `True` for COMPLETED, FAILED, CANCELED: the statuses the scheduler's
quiescence check (`_process_tasks`, lines 350-358) treats as finished. -/
def TaskStatus.isTerminal : TaskStatus → Bool
  | .COMPLETED | .FAILED | .CANCELED => true
  | _ => false

/-- A dynamically-typed Python value, as far as the manager stores one: the
`output_path` field is annotated `str` and initialised to `""`, but
`_download_task` assigns it whatever `VideoDownloader.download` returns,
which per that function's source is a `bool`. -/
inductive PyVal where
  | vStr (s : String)
  | vBool (b : Bool)
deriving DecidableEq, Repr

/-- A Python value as compared by `start_all_tasks`'s filter: a `TaskStatus`
enum member on the left, the plain `int` `TaskStatus.WAITING.value` on the
right. -/
inductive PyObj where
  | pyStatus (s : TaskStatus)
  | pyNat (n : Nat)
deriving DecidableEq, Repr

/-- Python `==` on these values.  `enum.Enum` does not override `__eq__`, so
an enum member equals only the same member (identity); comparing an enum
member with an `int` falls through `NotImplemented` on both sides and
evaluates to `False`.  This is the comparison semantics behind
`task.status == TaskStatus.WAITING.value` in `start_all_tasks`. -/
def pyEq : PyObj → PyObj → Bool
  | .pyStatus a, .pyStatus b => a = b
  | .pyNat a, .pyNat b => a = b
  | _, _ => false

/-- One download request: the `DownloadTask` dataclass. `created_at` is an
inert bookkeeping stamp (the source stores `time.time()` and never reads
it for control decisions). -/
structure DownloadTask where
  id : String
  url : String
  video_format : Option String
  audio_format : Option String
  subtitle_lang : Option String
  save_dir : String
  status : TaskStatus := .WAITING
  progress : ℚ := 0
  speed : String := "0.00 MB/s"
  title : String := ""
  error_message : String := ""
  created_at : Nat := 0
  output_path : PyVal := .vStr ""
deriving DecidableEq, Repr

/-- The mutable state of one `VideoDownloader` that the manager's control
flow can observe: the cancellation flag and the progress bookkeeping
fields reset at the top of `download`.  (`config` and `ydl_opts` are inert
option dictionaries; `save_dir` is assigned by `add_task`.) -/
structure VideoDownloader where
  save_dir : String
  download_started : Bool := false
  current_file : String := ""
  current_percent : ℚ := 0
  display_percent : ℚ := 0
  last_speed : String := "0.00 MB/s"
  is_merging : Bool := false
  is_canceled : Bool := false
deriving DecidableEq, Repr

/-- The manager's outgoing notifications (`DownloadManagerSignals`).
Payloads are the Python values actually passed to `emit`: in particular
`task_completed` carries whatever `downloader.download` returned. -/
inductive Event where
  | task_added (id : String)
  | task_started (id : String)
  | task_paused (id : String)
  | task_resumed (id : String)
  | task_completed (id : String) (output : PyVal)
  | task_failed (id : String) (msg : String)
  | task_canceled (id : String)
  | task_removed (id : String)
  | task_progress_updated (id : String) (percent : ℚ) (speed : String)
  | all_tasks_completed
deriving DecidableEq, Repr

/-- How far a task's worker thread (`_download_task`, spawned by
`_process_tasks`) has progressed, at lock-region granularity.

* `spawned`    — thread started by the scheduler, first lock region not yet run;
* `checked`    — passed the membership check (lines 375-380), local `task` /
  `downloader` references captured;
* `inDl`       — status set to DOWNLOADING (lines 383-384), about to enter
  `downloader.download`;
* `inYdl`      — passed `download`'s `is_canceled` entry check, inside the
  external engine call;
* `finishing r` — `download` returned the bool `r`; the worker's success
  branch (lines 395-412) is pending;
* `excepting msg` — an exception escaped into the worker's `try` (either
  `download` raised, or the success branch's `task_completed.emit` raised
  `TypeError`) and the worker's except branch (lines 413-430) is pending
  with `str(e) = msg`;
* `done`       — thread finished. -/
inductive WorkerPhase where
  | spawned
  | checked
  | inDl
  | inYdl
  | finishing (r : Bool)
  | excepting (msg : String)
  | done
deriving DecidableEq, Repr

/-- A reference to a task record, as returned by `get_task` /
`get_all_tasks`: Python hands out the object itself, identified here by its
(never reused) id, to be dereferenced against whatever the heap holds now. -/
structure TaskRef where
  key : String
deriving DecidableEq, Repr

/-- What a facade method hands back to its caller: a boolean return value,
or an exception propagating out (the `ValueError` that `Queue.task_done`
raises when the unfinished counter is exhausted is the only one reachable). -/
inductive PyRet where
  | ret (b : Bool)
  | raised
deriving DecidableEq, Repr

/-- The whole shared state of a `DownloadManager`, plus the event trace and
the worker phases.  `taskIds` / `dlIds` are the key sets of the Python dicts
`self.tasks` / `self.downloader_map` (in insertion order); `records` /
`dlRecords` are the heaps of the referenced mutable objects, never erased
(see the heap convention above).  `waiting_queue` is the queue's deque,
head first; `unfinished` is its `unfinished_tasks` counter.  `schedPopped`
is the scheduling loop's local variable `task_id` between the *unlocked*
`waiting_queue.get(block=False)` (line 316, guarded only by the queue's
own mutex) and the lock-protected promotion block (lines 318-340): a task
id that has been popped but not yet examined lives there, outside both the
queue and the active list.  `events` is the trace of emitted manager
signals, newest first. -/
structure ManagerState where
  max_concurrent : Nat
  taskIds : List String
  records : String → Option DownloadTask
  dlIds : List String
  dlRecords : String → Option VideoDownloader
  active_tasks : List String
  waiting_queue : List String
  unfinished : Nat
  schedPopped : Option String
  phases : String → Option WorkerPhase
  events : List Event
  running : Bool

/-- A fresh manager (`DownloadManager.__init__`). -/
def initManager (max_concurrent : Nat) : ManagerState where
  max_concurrent := max_concurrent
  taskIds := []
  records := fun _ => none
  dlIds := []
  dlRecords := fun _ => none
  active_tasks := []
  waiting_queue := []
  unfinished := 0
  schedPopped := none
  phases := fun _ => none
  events := []
  running := true

/-- Pointwise map update (a Python dict / attribute store). -/
def upd {α : Type} (f : String → Option α) (k : String) (v : α) :
    String → Option α :=
  fun x => if x = k then some v else f x

theorem upd_same {α : Type} (f : String → Option α) (k : String) (v : α) :
    upd f k v k = some v := by simp [upd]

theorem upd_ne {α : Type} (f : String → Option α) (k x : String) (v : α)
    (h : x ≠ k) : upd f k v x = f x := by simp [upd, h]

/-- Overwrite the heap record of `id` (an attribute assignment through a
reference, e.g. `task.status = ...`). -/
def setRecord (s : ManagerState) (id : String) (t : DownloadTask) :
    ManagerState :=
  { s with records := upd s.records id t }

/-- Overwrite the heap record of `id`'s downloader. -/
def setDl (s : ManagerState) (id : String) (d : VideoDownloader) :
    ManagerState :=
  { s with dlRecords := upd s.dlRecords id d }

/-- Append an event to the trace (a manager signal `emit`). -/
def emitE (s : ManagerState) (e : Event) : ManagerState :=
  { s with events := e :: s.events }

/-- Remove `id` from the active list if present (the guarded
`self.active_tasks.remove(task_id)` pattern). -/
def eraseActive (s : ManagerState) (id : String) : ManagerState :=
  { s with active_tasks := s.active_tasks.erase id }

/-- `self.waiting_queue.put(task_id)`: appends and bumps the unfinished
counter. -/
def pushQueue (s : ManagerState) (id : String) : ManagerState :=
  { s with waiting_queue := s.waiting_queue ++ [id],
           unfinished := s.unfinished + 1 }

/-- The message of the `ValueError` raised by `Queue.task_done` when called
more often than items were put. -/
def taskDoneMsg : String := "task_done() called too many times"

/-- `str(e)` of the `TypeError` PyQt6 raises when
`task_completed.emit(task_id, output_path)` passes the bool that
`VideoDownloader.download` returned as the second argument of the
`pyqtSignal(str, str)` `task_completed`: a Python `bool` is not
convertible to the declared `str`, so marshalling fails before any slot
is invoked and the event is never delivered.  (PyQt's exact wording is
version-dependent; the model fixes one representative non-empty text.) -/
def emitTypeErrMsg : String :=
  "task_completed(self, task_id: str, output_path: str): argument 2 has unexpected type bool"

/-- `self.waiting_queue.task_done()`.  Returns the new state and whether a
`ValueError` was raised (the counter was already zero; the counter is not
decremented in that case). -/
def taskDone (s : ManagerState) : ManagerState × Bool :=
  if s.unfinished = 0 then (s, true)
  else ({ s with unfinished := s.unfinished - 1 }, false)

/-- `_on_error_occurred(task_id, error_msg)`: the manager callback directly
connected to every downloader's `error_occurred` signal.  Marks the task
FAILED, records the message, drops it from the active list, emits
`task_failed` and calls `task_done`.  Returns the state and whether the
final `task_done` raised (in which case the `ValueError` propagates to the
emitter).  The `none` record branch is unreachable for well-formed states
(every dict key has a record) and leaves the state unchanged. -/
def onErrorOccurred (s : ManagerState) (id msg : String) :
    ManagerState × Bool :=
  if id ∈ s.taskIds then
    match s.records id with
    | some t =>
        let s₁ := setRecord s id { t with status := .FAILED, error_message := msg }
        let s₂ := eraseActive s₁ id
        let s₃ := emitE s₂ (.task_failed id msg)
        taskDone s₃
    | none => (s, false)
  else (s, false)

/-- `_on_progress_updated(task_id, percent, speed)`: updates the record and
emits `task_progress_updated`. -/
def onProgressUpdated (s : ManagerState) (id : String) (percent : ℚ)
    (speed : String) : ManagerState :=
  if id ∈ s.taskIds then
    match s.records id with
    | some t =>
        emitE (setRecord s id { t with progress := percent, speed := speed })
          (.task_progress_updated id percent speed)
    | none => s
  else s

/-- `VideoDownloader.cancel_download`, called with the manager lock held by
`pause_task` / `cancel_task`.  Sets `is_canceled`; the `YDL_INSTANCE`
branch is dead (the global is always `None`); then
`error_occurred.emit("下载已取消")` runs `_on_error_occurred` synchronously.
Returns the state and whether that callback raised. -/
def cancelDownload (s : ManagerState) (id : String) : ManagerState × Bool :=
  match s.dlRecords id with
  | some d => onErrorOccurred (setDl s id { d with is_canceled := true }) id "下载已取消"
  | none => (s, false)

/-- `add_task`: create the record (WAITING), bind a fresh downloader,
enqueue, emit `task_added`.  Id freshness (uuid4) is a hypothesis of the
`add` transition, not of this function. -/
def addTask (s : ManagerState) (id url : String) (video_format audio_format : String)
    (subtitle_lang : Option String) (save_dir : String) : ManagerState :=
  let task : DownloadTask :=
    { id := id, url := url, video_format := some video_format,
      audio_format := some audio_format, subtitle_lang := subtitle_lang,
      save_dir := save_dir }
  let dl : VideoDownloader := { save_dir := save_dir }
  let s₁ := { s with taskIds := s.taskIds ++ [id],
                     records := upd s.records id task,
                     dlIds := s.dlIds ++ [id],
                     dlRecords := upd s.dlRecords id dl }
  emitE (pushQueue s₁ id) (.task_added id)

/-- `pause_task`.  Only DOWNLOADING tasks pass the guard; then the status is
set to PAUSED, `cancel_download` fires (whose synchronous error callback
overwrites the status with FAILED), the id is dropped from the active list
and `task_paused` is emitted. -/
def pauseTask (s : ManagerState) (id : String) : ManagerState × PyRet :=
  if id ∈ s.taskIds then
    match s.records id with
    | some t =>
        if t.status = .DOWNLOADING then
          let s₁ := setRecord s id { t with status := .PAUSED }
          let (s₂, raised) :=
            if id ∈ s₁.dlIds then cancelDownload s₁ id else (s₁, false)
          if raised then (s₂, .raised)
          else (emitE (eraseActive s₂ id) (.task_paused id), .ret true)
        else (s, .ret false)
    | none => (s, .ret false)
  else (s, .ret false)

/-- `resume_task`: only PAUSED tasks pass; they are set WAITING, re-enqueued
and `task_resumed` is emitted. -/
def resumeTask (s : ManagerState) (id : String) : ManagerState × PyRet :=
  if id ∈ s.taskIds then
    match s.records id with
    | some t =>
        if t.status = .PAUSED then
          let s₁ := setRecord s id { t with status := .WAITING }
          (emitE (pushQueue s₁ id) (.task_resumed id), .ret true)
        else (s, .ret false)
    | none => (s, .ret false)
  else (s, .ret false)

/-- `cancel_task`: rejected only for COMPLETED and CANCELED; otherwise sets
CANCELED, fires `cancel_download` (whose synchronous callback overwrites
the status with FAILED), drops the id from the active list and emits
`task_canceled`. -/
def cancelTask (s : ManagerState) (id : String) : ManagerState × PyRet :=
  if id ∈ s.taskIds then
    match s.records id with
    | some t =>
        if t.status = .COMPLETED ∨ t.status = .CANCELED then (s, .ret false)
        else
          let s₁ := setRecord s id { t with status := .CANCELED }
          let (s₂, raised) :=
            if id ∈ s₁.dlIds then cancelDownload s₁ id else (s₁, false)
          if raised then (s₂, .raised)
          else (emitE (eraseActive s₂ id) (.task_canceled id), .ret true)
    | none => (s, .ret false)
  else (s, .ret false)

/-- `remove_task`: cancel first when DOWNLOADING (aborting if that raises),
then delete the task and downloader dict entries (the heap records survive,
still referenced elsewhere) and emit `task_removed`. -/
def removeTask (s : ManagerState) (id : String) : ManagerState × PyRet :=
  if id ∈ s.taskIds then
    match s.records id with
    | some t =>
        let (s₁, raised) :=
          if t.status = .DOWNLOADING then
            match cancelTask s id with
            | (s', .raised) => (s', true)
            | (s', _) => (s', false)
          else (s, false)
        if raised then (s₁, .raised)
        else
          let s₂ := { s₁ with taskIds := s₁.taskIds.erase id,
                              dlIds := s₁.dlIds.erase id }
          (emitE s₂ (.task_removed id), .ret true)
    | none => (s, .ret false)
  else (s, .ret false)

/-- `get_task`: `self.tasks.get(task_id)` returns the live record object —
a reference, not a copy. -/
def getTask (s : ManagerState) (id : String) : Option TaskRef :=
  if id ∈ s.taskIds then some ⟨id⟩ else none

/-- `get_all_tasks`: `self.tasks.copy()` — a fresh dict whose values are
the same record references. -/
def getAllTasks (s : ManagerState) : List (String × TaskRef) :=
  s.taskIds.map fun id => (id, ⟨id⟩)

/-- Read a task record through a reference previously handed out. -/
def derefTask (s : ManagerState) (r : TaskRef) : Option DownloadTask :=
  s.records r.key

/-- The filter of `start_all_tasks`: `task.status == TaskStatus.WAITING.value`
compares the status enum member against the plain `int` `1` (see `pyEq`). -/
def startAllWaitingIds (s : ManagerState) : List String :=
  s.taskIds.filter fun id =>
    match s.records id with
    | some t => pyEq (.pyStatus t.status) (.pyNat (TaskStatus.value .WAITING))
    | none => false

/-- `start_all_tasks`: enqueue every filtered id not already in the queue. -/
def startAllTasks (s : ManagerState) : ManagerState :=
  (startAllWaitingIds s).foldl
    (fun s' id => if id ∈ s'.waiting_queue then s' else pushQueue s' id) s

/-- The status of `id`'s record, if any. -/
def statusOf (s : ManagerState) (id : String) : Option TaskStatus :=
  (s.records id).map (·.status)

/-- The scheduler's pop (`_process_tasks`, lines 309-316): the `can_start`
read happens under the lock (lines 310-311, mutating nothing) and the
`waiting_queue.get(block=False)` at line 316 happens *outside* the lock,
protected only by the queue's own mutex, so it is its own step.  The
capacity guard is sound at the pop instant: only this single scheduler
thread ever appends to the active list, and everything else only removes,
so the list cannot have grown since the `can_start` read.  On success the
popped id sits in the loop's local `task_id` variable (`schedPopped`); an
empty queue raises `Empty`, which is caught and skipped. -/
def processPromotePop (s : ManagerState) : ManagerState :=
  if s.active_tasks.length < s.max_concurrent then
    match s.waiting_queue with
    | [] => s
    | id :: rest => { s with waiting_queue := rest, schedPopped := some id }
  else s

/-- The scheduler's promotion block (`_process_tasks`, lines 318-340), the
lock region that consumes the popped id: a task that still exists and is
still WAITING gets a worker thread, joins the active list, turns ANALYZING
and `task_started` is emitted; a stale entry is discarded with `task_done`
(whose possible `ValueError` the loop's blanket `except` swallows — either
way the local variable is dropped). -/
def processPromoteRun (s : ManagerState) (id : String) : ManagerState :=
  if id ∈ s.taskIds ∧ statusOf s id = some .WAITING then
    match s.records id with
    | some t =>
        emitE (setRecord
          { s with schedPopped := none,
                   phases := upd s.phases id .spawned,
                   active_tasks := s.active_tasks ++ [id] }
          id { t with status := .ANALYZING })
          (.task_started id)
    | none => { s with schedPopped := none }
  else (taskDone { s with schedPopped := none }).1

/-- Whether some task is not yet terminal (`has_incomplete` in
`_process_tasks`; every dict key has a record in well-formed states, and a
missing record counts as complete). -/
def hasIncomplete (s : ManagerState) : Bool :=
  s.taskIds.any fun id =>
    match s.records id with
    | some t => ¬ t.status.isTerminal
    | none => false

/-- The scheduler's quiescence check (`_process_tasks`, lines 345-361):
whenever the active list and queue are empty, tasks exist and all are
terminal, `all_tasks_completed` is emitted — every loop iteration in which
the condition holds, as the source keeps no emitted-before flag. -/
def processCheck (s : ManagerState) : ManagerState :=
  if s.active_tasks = [] ∧ s.waiting_queue = [] ∧ s.taskIds ≠ [] ∧
      hasIncomplete s = false then
    emitE s .all_tasks_completed
  else s

/-- Worker lock region 1 (`_download_task`, lines 375-380): bail out unless
the task and downloader are still registered. -/
def workerCheck (s : ManagerState) (id : String) : ManagerState :=
  if id ∈ s.taskIds ∧ id ∈ s.dlIds then
    { s with phases := upd s.phases id .checked }
  else
    { s with phases := upd s.phases id .done }

/-- Worker lock region 2 (lines 383-384): `task.status = DOWNLOADING`
through the captured reference — a heap write that does not consult the
dict, so it happens even if the task was removed in between. -/
def workerSetDownloading (s : ManagerState) (id : String) : ManagerState :=
  match s.records id with
  | some t =>
      { setRecord s id { t with status := .DOWNLOADING } with
        phases := upd s.phases id .inDl }
  | none => { s with phases := upd s.phases id .inDl }

/-- Entry of `VideoDownloader.download` (lines 396-404): a cancelled
downloader returns `False` at once, with no reset and no transfer;
otherwise the progress fields are reset and the external engine call
begins. -/
def workerEntry (s : ManagerState) (id : String) : ManagerState :=
  match s.dlRecords id with
  | some d =>
      if d.is_canceled then
        { s with phases := upd s.phases id (.finishing false) }
      else
        { setDl s id
            { d with download_started := false, current_percent := 0,
                     display_percent := 0, last_speed := "0.00 MB/s",
                     is_merging := false } with
          phases := upd s.phases id .inYdl }
  | none => { s with phases := upd s.phases id (.finishing false) }

/-- The external engine call returns normally: `download` emits
`download_finished` (whose manager handler `_on_download_finished` is
`pass`), surfaces the folder (external side effect) and returns `True`. -/
def workerYdlOk (s : ManagerState) (id : String) : ManagerState :=
  { s with phases := upd s.phases id (.finishing true) }

/-- The external engine call raises with message `msg`: `download`'s except
branch emits `error_occurred("下载失败: " ++ msg)` (synchronously running
`_on_error_occurred`; the traceback suffix is abbreviated away) and returns
`False` — unless that callback itself raised, in which case the exception
escapes `download` into the worker's except branch. -/
def workerYdlRaise (s : ManagerState) (id msg : String) : ManagerState :=
  let p := onErrorOccurred s id ("下载失败: " ++ msg)
  if p.2 then { p.1 with phases := upd p.1.phases id (.excepting taskDoneMsg) }
  else { p.1 with phases := upd p.1.phases id (.finishing false) }

/-- A progress-hook error while inside the engine (`_progress_hook` catches
its own exception — including the one it raises itself when `is_canceled`
is set — and emits `error_occurred`).  If the callback's `task_done`
raises, the `ValueError` escapes the hook, aborts the engine call, and
`download`'s except branch emits once more; if that raises too, the
exception reaches the worker's except branch. -/
def workerHookError (s : ManagerState) (id msg : String) : ManagerState :=
  let p := onErrorOccurred s id msg
  if p.2 then
    let q := onErrorOccurred p.1 id ("下载失败: " ++ taskDoneMsg)
    if q.2 then { q.1 with phases := upd q.1.phases id (.excepting taskDoneMsg) }
    else { q.1 with phases := upd q.1.phases id (.finishing false) }
  else p.1

/-- A progress callback from inside the engine
(`_progress_hook` → `progress_updated.emit` → `_on_progress_updated`). -/
def workerProgress (s : ManagerState) (id : String) (percent : ℚ)
    (speed : String) : ManagerState :=
  onProgressUpdated s id percent speed

/-- The worker's except branch (lines 413-430): mark FAILED with
`str(e)`, drop from the active list, emit `task_failed`, `task_done` (whose
own `ValueError`, if any, kills the thread after the mutations). -/
def workerExceptBody (s : ManagerState) (id msg : String) : ManagerState :=
  if id ∈ s.taskIds then
    match s.records id with
    | some t =>
        let s₁ := setRecord s id { t with status := .FAILED, error_message := msg }
        let s₂ := emitE (eraseActive s₁ id) (.task_failed id msg)
        { (taskDone s₂).1 with phases := upd s₂.phases id .done }
    | none => { s with phases := upd s.phases id .done }
  else { s with phases := upd s.phases id .done }

/-- The worker's success branch (lines 395-412), entered whenever
`download` *returns* — also when it returns `False` after an error, since
only exceptions reach the except branch.  It marks COMPLETED, sets
`progress = 100.0`, stores the returned bool in `output_path` and drops
the id from the active list; then `task_completed.emit(task_id,
output_path)` raises `TypeError` (a bool cannot be marshalled to the
`pyqtSignal(str, str)` — see `emitTypeErrMsg`), so the event is never
delivered, the `with self.lock` block is aborted before the logging and
the `task_done()` at line 412, the lock is released, and the worker's
except branch (a separate lock region, the `wExcept` step) is pending
with `str(e) = emitTypeErrMsg`.  A task no longer registered skips the
whole block, so nothing raises and the thread just ends. -/
def workerFinish (s : ManagerState) (id : String) (r : Bool) : ManagerState :=
  if id ∈ s.taskIds then
    match s.records id with
    | some t =>
        { eraseActive (setRecord s id
            { t with status := .COMPLETED, progress := 100,
                     output_path := .vBool r }) id with
          phases := upd s.phases id (.excepting emitTypeErrMsg) }
    | none => { s with phases := upd s.phases id .done }
  else { s with phases := upd s.phases id .done }

/-- The worker's except branch as a step (entered from `excepting msg`). -/
def workerExcept (s : ManagerState) (id msg : String) : ManagerState :=
  workerExceptBody s id msg

/-- One atomic transition of the system: a facade call from any thread, one
scheduler-loop action, or one worker lock region.  The `add` transition
carries the uuid4 freshness facts (ids are never reused, so a fresh id has
no heap record).  The scheduling loop is a single sequential thread, which
the `schedPopped` hypotheses encode: a pop only happens when no popped id
is pending, and the quiescence check only runs between full iterations
(after the promotion block consumed any popped id); the promotion block
itself runs unconditionally once an id was popped — `running` is only
consulted at the loop head, so `promoteRun` carries no `running`
hypothesis, and neither does `promotePop` (the flag may be cleared between
the loop-head check and the unlocked `get`).  `shutdown`'s
`running = False` write is the `stopRunning` step; the `cancel_task` calls
it performs under the same lock, and the `pause_task` calls of
`pause_all_tasks`, are the already-present `cancel` / `pause` transitions
(splitting the composite into steps only adds intermediate states, which
is conservative for the invariants proved below). -/
inductive Step : ManagerState → ManagerState → Prop where
  | add (s : ManagerState) (id url vf af : String) (sl : Option String)
      (dir : String) (hfresh : s.records id = none)
      (hdfresh : s.dlRecords id = none) :
      Step s (addTask s id url vf af sl dir)
  | pause (s : ManagerState) (id : String) : Step s (pauseTask s id).1
  | resume (s : ManagerState) (id : String) : Step s (resumeTask s id).1
  | cancel (s : ManagerState) (id : String) : Step s (cancelTask s id).1
  | remove (s : ManagerState) (id : String) : Step s (removeTask s id).1
  | startAll (s : ManagerState) : Step s (startAllTasks s)
  | promotePop (s : ManagerState) (hsp : s.schedPopped = none) :
      Step s (processPromotePop s)
  | promoteRun (s : ManagerState) (id : String)
      (hsp : s.schedPopped = some id) : Step s (processPromoteRun s id)
  | check (s : ManagerState) (h : s.running = true)
      (hsp : s.schedPopped = none) : Step s (processCheck s)
  | wCheck (s : ManagerState) (id : String)
      (h : s.phases id = some .spawned) : Step s (workerCheck s id)
  | wSetDl (s : ManagerState) (id : String)
      (h : s.phases id = some .checked) : Step s (workerSetDownloading s id)
  | wEntry (s : ManagerState) (id : String)
      (h : s.phases id = some .inDl) : Step s (workerEntry s id)
  | wYdlOk (s : ManagerState) (id : String)
      (h : s.phases id = some .inYdl) : Step s (workerYdlOk s id)
  | wYdlRaise (s : ManagerState) (id msg : String)
      (h : s.phases id = some .inYdl) : Step s (workerYdlRaise s id msg)
  | wHookErr (s : ManagerState) (id msg : String)
      (h : s.phases id = some .inYdl) : Step s (workerHookError s id msg)
  | wProgress (s : ManagerState) (id : String) (percent : ℚ) (speed : String)
      (h : s.phases id = some .inYdl) :
      Step s (workerProgress s id percent speed)
  | wFinish (s : ManagerState) (id : String) (r : Bool)
      (h : s.phases id = some (.finishing r)) : Step s (workerFinish s id r)
  | wExcept (s : ManagerState) (id msg : String)
      (h : s.phases id = some (.excepting msg)) : Step s (workerExcept s id msg)
  | stopRunning (s : ManagerState) : Step s { s with running := false }

/-- States reachable from a fresh manager with the given concurrency bound. -/
def Reachable (max_concurrent : Nat) (s : ManagerState) : Prop :=
  Relation.ReflTransGen Step (initManager max_concurrent) s

/-! ## Concrete executions

Four short runs used as witnesses and counterexamples below.

Trace `qs*` (quiescence): one task is added and cancelled while WAITING;
the scheduler then drains the stale queue entry, leaving a quiescent
manager.

Trace `fl*` (failing download): two tasks are added with `max_concurrent
= 2`; the first is promoted and its engine call raises `"boom"`; the
worker's success branch runs on the returned `False`, its emit raises,
and the except branch ends the task FAILED.

Trace `ok*` (successful download): one task is added with `max_concurrent
= 1`, promoted, and its engine call returns normally; the worker's
success branch runs on the returned `True`, its emit raises, and the
except branch ends the task FAILED.  `ok2p`, the state between the
scheduler's unlocked pop and the promotion block, has a WAITING task in
neither the queue nor the active list.

Trace `pd*` (pause mid-download): the `ok` trace is stopped right after
the worker set DOWNLOADING, then `pause_task` and `resume_task` are
called. -/

def qs0 : ManagerState := initManager 1
def qs1 : ManagerState := addTask qs0 "t1" "u" "vf" "af" none "dir"
def qs2 : ManagerState := (cancelTask qs1 "t1").1
def qs2p : ManagerState := processPromotePop qs2
def qs3 : ManagerState := processPromoteRun qs2p "t1"

theorem reach_qs1 : Reachable 1 qs1 :=
  Relation.ReflTransGen.tail .refl (Step.add qs0 "t1" "u" "vf" "af" none "dir" rfl rfl)

theorem reach_qs3 : Reachable 1 qs3 :=
  Relation.ReflTransGen.tail
    (Relation.ReflTransGen.tail
      (Relation.ReflTransGen.tail reach_qs1 (Step.cancel qs1 "t1"))
      (Step.promotePop qs2 rfl))
    (Step.promoteRun qs2p "t1" rfl)

def fl0 : ManagerState := initManager 2
def fl1 : ManagerState := addTask fl0 "t1" "u1" "vf" "af" none "dir"
def fl2 : ManagerState := addTask fl1 "t2" "u2" "vf" "af" none "dir"
def fl3p : ManagerState := processPromotePop fl2
def fl3 : ManagerState := processPromoteRun fl3p "t1"
def fl4 : ManagerState := workerCheck fl3 "t1"
def fl5 : ManagerState := workerSetDownloading fl4 "t1"
def fl6 : ManagerState := workerEntry fl5 "t1"
def fl7 : ManagerState := workerYdlRaise fl6 "t1" "boom"
def fl8 : ManagerState := workerFinish fl7 "t1" false
def fl9 : ManagerState := workerExcept fl8 "t1" emitTypeErrMsg

theorem reach_fl5 : Reachable 2 fl5 := by
  have h1 : Reachable 2 fl1 :=
    Relation.ReflTransGen.tail .refl (Step.add fl0 "t1" "u1" "vf" "af" none "dir" rfl rfl)
  have h2 : Reachable 2 fl2 :=
    Relation.ReflTransGen.tail h1 (Step.add fl1 "t2" "u2" "vf" "af" none "dir" rfl rfl)
  have h3p : Reachable 2 fl3p :=
    Relation.ReflTransGen.tail h2 (Step.promotePop fl2 rfl)
  have h3 : Reachable 2 fl3 :=
    Relation.ReflTransGen.tail h3p (Step.promoteRun fl3p "t1" rfl)
  have h4 : Reachable 2 fl4 :=
    Relation.ReflTransGen.tail h3 (Step.wCheck fl3 "t1" rfl)
  exact Relation.ReflTransGen.tail h4 (Step.wSetDl fl4 "t1" rfl)

theorem reach_fl7 : Reachable 2 fl7 := by
  have h6 : Reachable 2 fl6 :=
    Relation.ReflTransGen.tail reach_fl5 (Step.wEntry fl5 "t1" rfl)
  exact Relation.ReflTransGen.tail h6 (Step.wYdlRaise fl6 "t1" "boom" rfl)

theorem reach_fl8 : Reachable 2 fl8 :=
  Relation.ReflTransGen.tail reach_fl7 (Step.wFinish fl7 "t1" false rfl)

theorem reach_fl9 : Reachable 2 fl9 :=
  Relation.ReflTransGen.tail reach_fl8 (Step.wExcept fl8 "t1" emitTypeErrMsg rfl)

def ok0 : ManagerState := initManager 1
def ok1 : ManagerState := addTask ok0 "t1" "u" "vf" "af" none "dir"
def ok2p : ManagerState := processPromotePop ok1
def ok2 : ManagerState := processPromoteRun ok2p "t1"
def ok3 : ManagerState := workerCheck ok2 "t1"
def ok4 : ManagerState := workerSetDownloading ok3 "t1"
def ok5 : ManagerState := workerEntry ok4 "t1"
def ok6 : ManagerState := workerYdlOk ok5 "t1"
def ok7 : ManagerState := workerFinish ok6 "t1" true
def ok8 : ManagerState := workerExcept ok7 "t1" emitTypeErrMsg

theorem reach_ok2p : Reachable 1 ok2p := by
  have h1 : Reachable 1 ok1 :=
    Relation.ReflTransGen.tail .refl (Step.add ok0 "t1" "u" "vf" "af" none "dir" rfl rfl)
  exact Relation.ReflTransGen.tail h1 (Step.promotePop ok1 rfl)

theorem reach_ok4 : Reachable 1 ok4 := by
  have h2 : Reachable 1 ok2 :=
    Relation.ReflTransGen.tail reach_ok2p (Step.promoteRun ok2p "t1" rfl)
  have h3 : Reachable 1 ok3 :=
    Relation.ReflTransGen.tail h2 (Step.wCheck ok2 "t1" rfl)
  exact Relation.ReflTransGen.tail h3 (Step.wSetDl ok3 "t1" rfl)

theorem reach_ok8 : Reachable 1 ok8 := by
  have h5 : Reachable 1 ok5 :=
    Relation.ReflTransGen.tail reach_ok4 (Step.wEntry ok4 "t1" rfl)
  have h6 : Reachable 1 ok6 :=
    Relation.ReflTransGen.tail h5 (Step.wYdlOk ok5 "t1" rfl)
  have h7 : Reachable 1 ok7 :=
    Relation.ReflTransGen.tail h6 (Step.wFinish ok6 "t1" true rfl)
  exact Relation.ReflTransGen.tail h7 (Step.wExcept ok7 "t1" emitTypeErrMsg rfl)

def pd1 : ManagerState := (pauseTask ok4 "t1").1
def pd2 : ManagerState := (resumeTask pd1 "t1").1

theorem reach_pd1 : Reachable 1 pd1 :=
  Relation.ReflTransGen.tail reach_ok4 (Step.pause ok4 "t1")

/-! ## Reachability invariants

`Inv` packages everything provable by induction over `Step` that the
claims need.  Beyond the two claimed invariants (`lenLe`, `disj`) it
carries the bookkeeping that makes them inductive: the queue is
duplicate-free, every dict key / queued id / active id has a heap record,
the downloader dict has exactly the task dict's keys, no registered task
is ever (stably) PAUSED — `pause_task`'s synchronous error callback
overwrites PAUSED with FAILED before the lock is released — and a popped
id held in the scheduler's local variable is no longer queued, has a heap
record, and was popped with spare capacity (only the scheduler appends to
the active list, so the capacity it checked cannot have been consumed by
anyone else). -/

structure Inv (s : ManagerState) : Prop where
  lenLe : s.active_tasks.length ≤ s.max_concurrent
  disj : ∀ id ∈ s.active_tasks, id ∉ s.waiting_queue
  qNodup : s.waiting_queue.Nodup
  tasksWF : ∀ id ∈ s.taskIds, (s.records id).isSome
  dlEq : s.dlIds = s.taskIds
  dlWF : ∀ id ∈ s.taskIds, (s.dlRecords id).isSome
  noPaused : ∀ id ∈ s.taskIds, ∀ t, s.records id = some t → t.status ≠ .PAUSED
  qRec : ∀ id ∈ s.waiting_queue, (s.records id).isSome
  aRec : ∀ id ∈ s.active_tasks, (s.records id).isSome
  spNotQ : ∀ id, s.schedPopped = some id → id ∉ s.waiting_queue
  spRec : ∀ id, s.schedPopped = some id → (s.records id).isSome
  spLen : ∀ id, s.schedPopped = some id →
    s.active_tasks.length < s.max_concurrent

/-- `Inv`, except that the PAUSED-freedom clause is only required away
from one distinguished id: the shape of a state midway through
`pause_task` / `cancel_task`, whose record at `id` the error callback is
about to overwrite with FAILED. -/
structure InvAt (s : ManagerState) (id₀ : String) : Prop where
  lenLe : s.active_tasks.length ≤ s.max_concurrent
  disj : ∀ id ∈ s.active_tasks, id ∉ s.waiting_queue
  qNodup : s.waiting_queue.Nodup
  tasksWF : ∀ id ∈ s.taskIds, (s.records id).isSome
  dlEq : s.dlIds = s.taskIds
  dlWF : ∀ id ∈ s.taskIds, (s.dlRecords id).isSome
  noPaused : ∀ id ∈ s.taskIds, id ≠ id₀ → ∀ t, s.records id = some t →
    t.status ≠ .PAUSED
  qRec : ∀ id ∈ s.waiting_queue, (s.records id).isSome
  aRec : ∀ id ∈ s.active_tasks, (s.records id).isSome
  spNotQ : ∀ id, s.schedPopped = some id → id ∉ s.waiting_queue
  spRec : ∀ id, s.schedPopped = some id → (s.records id).isSome
  spLen : ∀ id, s.schedPopped = some id →
    s.active_tasks.length < s.max_concurrent

theorem setRecord_records (s : ManagerState) (id : String) (t : DownloadTask)
    (x : String) : (setRecord s id t).records x = upd s.records id t x := rfl

theorem invAt_of_inv {s : ManagerState} (h : Inv s) (id₀ : String) :
    InvAt s id₀ where
  lenLe := h.lenLe
  disj := h.disj
  qNodup := h.qNodup
  tasksWF := h.tasksWF
  dlEq := h.dlEq
  dlWF := h.dlWF
  noPaused := fun id hid _ => h.noPaused id hid
  qRec := h.qRec
  aRec := h.aRec
  spNotQ := h.spNotQ
  spRec := h.spRec
  spLen := h.spLen

theorem upd_isSome {α : Type} (f : String → Option α) (k x : String) (v : α)
    (h : (f x).isSome) : (upd f k v x).isSome := by
  unfold upd; split <;> simp_all

theorem invAt_setRecord {s : ManagerState} {id₀ : String} (h : InvAt s id₀)
    (t : DownloadTask) : InvAt (setRecord s id₀ t) id₀ where
  lenLe := h.lenLe
  disj := h.disj
  qNodup := h.qNodup
  tasksWF := fun id hid => upd_isSome _ _ _ _ (h.tasksWF id hid)
  dlEq := h.dlEq
  dlWF := h.dlWF
  noPaused := by
    intro id hid hne t' ht'
    rw [setRecord_records, upd_ne _ _ _ _ hne] at ht'
    exact h.noPaused id hid hne t' ht'
  qRec := fun id hid => upd_isSome _ _ _ _ (h.qRec id hid)
  aRec := fun id hid => upd_isSome _ _ _ _ (h.aRec id hid)
  spNotQ := h.spNotQ
  spRec := fun id hid => upd_isSome _ _ _ _ (h.spRec id hid)
  spLen := h.spLen

theorem invAt_setDl {s : ManagerState} {id₀ : String} (h : InvAt s id₀)
    (id : String) (d : VideoDownloader) : InvAt (setDl s id d) id₀ where
  lenLe := h.lenLe
  disj := h.disj
  qNodup := h.qNodup
  tasksWF := h.tasksWF
  dlEq := h.dlEq
  dlWF := fun x hx => upd_isSome _ _ _ _ (h.dlWF x hx)
  noPaused := h.noPaused
  qRec := h.qRec
  aRec := h.aRec
  spNotQ := h.spNotQ
  spRec := h.spRec
  spLen := h.spLen

theorem inv_emitE {s : ManagerState} (h : Inv s) (e : Event) :
    Inv (emitE s e) where
  lenLe := h.lenLe
  disj := h.disj
  qNodup := h.qNodup
  tasksWF := h.tasksWF
  dlEq := h.dlEq
  dlWF := h.dlWF
  noPaused := h.noPaused
  qRec := h.qRec
  aRec := h.aRec
  spNotQ := h.spNotQ
  spRec := h.spRec
  spLen := h.spLen

theorem inv_eraseActive {s : ManagerState} (h : Inv s) (id : String) :
    Inv (eraseActive s id) where
  lenLe := le_trans (List.Sublist.length_le (s.active_tasks.erase_sublist id))
    h.lenLe
  disj := fun x hx => h.disj x (List.mem_of_mem_erase hx)
  qNodup := h.qNodup
  tasksWF := h.tasksWF
  dlEq := h.dlEq
  dlWF := h.dlWF
  noPaused := h.noPaused
  qRec := h.qRec
  aRec := fun x hx => h.aRec x (List.mem_of_mem_erase hx)
  spNotQ := h.spNotQ
  spRec := h.spRec
  spLen := fun x hx => lt_of_le_of_lt
    (List.Sublist.length_le (s.active_tasks.erase_sublist id)) (h.spLen x hx)

theorem inv_taskDone {s : ManagerState} (h : Inv s) : Inv (taskDone s).1 := by
  unfold taskDone
  split
  · exact h
  · exact { h with }

/-- The error callback restores the full invariant: whatever the record at
`id₀` held, it now holds FAILED. -/
theorem invAt_onError {s : ManagerState} {id₀ : String} (h : InvAt s id₀)
    (msg : String) : Inv (onErrorOccurred s id₀ msg).1 := by
  unfold onErrorOccurred
  by_cases hid : id₀ ∈ s.taskIds
  · simp only [hid, if_true]
    rcases ht : s.records id₀ with _ | t
    · exact { h with
        noPaused := fun id hx t' ht' => by
          rcases eq_or_ne id id₀ with rfl | hne
          · rw [ht] at ht'; cases ht'
          · exact h.noPaused id hx hne t' ht' }
    · simp only []
      apply inv_taskDone
      apply inv_emitE
      refine inv_eraseActive ?_ id₀
      refine { lenLe := h.lenLe, disj := h.disj, qNodup := h.qNodup,
               tasksWF := ?_, dlEq := h.dlEq, dlWF := h.dlWF, noPaused := ?_,
               qRec := ?_, aRec := ?_, spNotQ := h.spNotQ, spRec := ?_,
               spLen := h.spLen }
      · exact fun x hx => upd_isSome _ _ _ _ (h.tasksWF x hx)
      · intro x hx t' ht'
        rcases eq_or_ne x id₀ with rfl | hne
        · rw [setRecord_records, upd_same] at ht'
          cases ht'; simp
        · rw [setRecord_records, upd_ne _ _ _ _ hne] at ht'
          exact h.noPaused x hx hne t' ht'
      · exact fun x hx => upd_isSome _ _ _ _ (h.qRec x hx)
      · exact fun x hx => upd_isSome _ _ _ _ (h.aRec x hx)
      · exact fun x hx => upd_isSome _ _ _ _ (h.spRec x hx)
  · simp only [hid, if_false]
    exact { h with
      noPaused := fun id hx t' ht' => by
        rcases eq_or_ne id id₀ with rfl | hne
        · exact absurd hx hid
        · exact h.noPaused id hx hne t' ht' }

theorem inv_phases {s : ManagerState} (h : Inv s)
    (p : String → Option WorkerPhase) : Inv { s with phases := p } :=
  { h with }

/-- Overwriting a record with a non-PAUSED status preserves the invariant
unconditionally. -/
theorem inv_setRecord_safe {s : ManagerState} (h : Inv s) (id : String)
    (t : DownloadTask) (h1 : t.status ≠ .PAUSED) :
    Inv (setRecord s id t) where
  lenLe := h.lenLe
  disj := h.disj
  qNodup := h.qNodup
  tasksWF := fun x hx => upd_isSome _ _ _ _ (h.tasksWF x hx)
  dlEq := h.dlEq
  dlWF := h.dlWF
  noPaused := by
    intro x hx t' ht'
    rcases eq_or_ne x id with rfl | hne
    · rw [setRecord_records, upd_same] at ht'; cases ht'; exact h1
    · rw [setRecord_records, upd_ne _ _ _ _ hne] at ht'
      exact h.noPaused x hx t' ht'
  qRec := fun x hx => upd_isSome _ _ _ _ (h.qRec x hx)
  aRec := fun x hx => upd_isSome _ _ _ _ (h.aRec x hx)
  spNotQ := h.spNotQ
  spRec := fun x hx => upd_isSome _ _ _ _ (h.spRec x hx)
  spLen := h.spLen

/-- Overwriting a record without changing its status preserves the
invariant. -/
theorem inv_setRecord_sameStatus {s : ManagerState} (h : Inv s)
    {id : String} {t : DownloadTask} (ht : s.records id = some t)
    (t' : DownloadTask) (hstat : t'.status = t.status) :
    Inv (setRecord s id t') where
  lenLe := h.lenLe
  disj := h.disj
  qNodup := h.qNodup
  tasksWF := fun x hx => upd_isSome _ _ _ _ (h.tasksWF x hx)
  dlEq := h.dlEq
  dlWF := h.dlWF
  noPaused := by
    intro x hx t'' ht''
    rcases eq_or_ne x id with rfl | hne
    · rw [setRecord_records, upd_same] at ht''; cases ht''
      rw [hstat]; exact h.noPaused x hx t ht
    · rw [setRecord_records, upd_ne _ _ _ _ hne] at ht''
      exact h.noPaused x hx t'' ht''
  qRec := fun x hx => upd_isSome _ _ _ _ (h.qRec x hx)
  aRec := fun x hx => upd_isSome _ _ _ _ (h.aRec x hx)
  spNotQ := h.spNotQ
  spRec := fun x hx => upd_isSome _ _ _ _ (h.spRec x hx)
  spLen := h.spLen

theorem fresh_not_mem {s : ManagerState} {id : String} {L : List String}
    (hfresh : s.records id = none)
    (hL : ∀ x ∈ L, (s.records x).isSome) : id ∉ L := by
  intro hmem
  have := hL id hmem
  rw [hfresh] at this
  cases this

theorem inv_addTask {s : ManagerState} (h : Inv s) (id url vf af : String)
    (sl : Option String) (dir : String) (hfresh : s.records id = none) :
    Inv (addTask s id url vf af sl dir) := by
  have hnotq : id ∉ s.waiting_queue := fresh_not_mem hfresh h.qRec
  have hnota : id ∉ s.active_tasks := fresh_not_mem hfresh h.aRec
  have hnott : id ∉ s.taskIds := fresh_not_mem hfresh h.tasksWF
  refine { lenLe := ?_, disj := ?_, qNodup := ?_, tasksWF := ?_, dlEq := ?_,
           dlWF := ?_, noPaused := ?_, qRec := ?_, aRec := ?_, spNotQ := ?_,
           spRec := ?_, spLen := ?_ } <;>
    simp only [addTask, pushQueue, emitE]
  · exact h.lenLe
  · intro x hx
    rw [List.mem_append, List.mem_singleton]
    rintro (hq | rfl)
    · exact h.disj x hx hq
    · exact hnota hx
  · rw [List.nodup_append]
    refine ⟨h.qNodup, List.nodup_singleton id, ?_⟩
    intro a ha hb
    rw [List.mem_singleton] at hb
    subst hb
    exact absurd ha hnotq
  · intro x hx
    rcases eq_or_ne x id with rfl | hne
    · rw [upd_same]; rfl
    · rcases List.mem_append.1 hx with hx' | hx'
      · exact upd_isSome _ _ _ _ (h.tasksWF x hx')
      · exact absurd (List.mem_singleton.1 hx') hne
  · rw [h.dlEq]
  · intro x hx
    rcases eq_or_ne x id with rfl | hne
    · rw [upd_same]; rfl
    · rcases List.mem_append.1 hx with hx' | hx'
      · exact upd_isSome _ _ _ _ (h.dlWF x hx')
      · exact absurd (List.mem_singleton.1 hx') hne
  · intro x hx t' ht'
    rcases eq_or_ne x id with rfl | hne
    · rw [upd_same] at ht'; cases ht'; simp
    · rw [upd_ne _ _ _ _ hne] at ht'
      rcases List.mem_append.1 hx with hx' | hx'
      · exact h.noPaused x hx' t' ht'
      · exact absurd (List.mem_singleton.1 hx') hne
  · intro x hx
    rcases eq_or_ne x id with rfl | hne
    · rw [upd_same]; rfl
    · rcases List.mem_append.1 hx with hx' | hx'
      · exact upd_isSome _ _ _ _ (h.qRec x hx')
      · exact absurd (List.mem_singleton.1 hx') hne
  · intro x hx
    exact upd_isSome _ _ _ _ (h.aRec x hx)
  · intro x hx
    rw [List.mem_append, List.mem_singleton]
    rintro (hq | rfl)
    · exact h.spNotQ x hx hq
    · have h2 := h.spRec _ hx
      rw [hfresh] at h2
      cases h2
  · intro x hx
    exact upd_isSome _ _ _ _ (h.spRec x hx)
  · intro x hx
    exact h.spLen x hx

theorem inv_setDl {s : ManagerState} (h : Inv s) (id : String)
    (d : VideoDownloader) : Inv (setDl s id d) :=
  { h with dlWF := fun x hx => upd_isSome _ _ _ _ (h.dlWF x hx) }

/-- The cancellation path shared by `pause_task` and `cancel_task`: after
the status at `id` was overwritten with anything, `cancel_download` (and
its synchronous error callback) restores the invariant. -/
theorem inv_cancelDownload_setRecord {s : ManagerState} (h : Inv s)
    {id : String} (hid : id ∈ s.taskIds) (t' : DownloadTask) :
    Inv (cancelDownload (setRecord s id t') id).1 := by
  have hd : (s.dlRecords id).isSome := h.dlWF id hid
  rcases hd' : s.dlRecords id with _ | d
  · rw [hd'] at hd; cases hd
  · unfold cancelDownload
    rw [show (setRecord s id t').dlRecords id = some d from hd']
    exact invAt_onError (invAt_setDl (invAt_setRecord (invAt_of_inv h id) t') id _) _

theorem inv_pauseTask {s : ManagerState} (h : Inv s) (id : String) :
    Inv (pauseTask s id).1 := by
  unfold pauseTask
  by_cases hid : id ∈ s.taskIds
  · simp only [hid, if_true]
    rcases ht : s.records id with _ | t
    · exact h
    · by_cases hst : t.status = .DOWNLOADING
      · simp only [hst, if_true]
        have hdl : id ∈ (setRecord s id { t with status := .PAUSED }).dlIds :=
          h.dlEq ▸ hid
        simp only [hdl, if_true]
        rcases he : cancelDownload (setRecord s id { t with status := .PAUSED }) id
          with ⟨s₂, raised⟩
        have hco : Inv s₂ := by
          have h' := inv_cancelDownload_setRecord h hid
            ({ t with status := .PAUSED })
          rw [he] at h'
          exact h'
        cases raised
        · exact inv_emitE (inv_eraseActive hco id) _
        · exact hco
      · simp only [hst, if_false]
        exact h
  · simp only [hid, if_false]
    exact h

theorem inv_resumeTask {s : ManagerState} (h : Inv s) (id : String) :
    Inv (resumeTask s id).1 := by
  unfold resumeTask
  by_cases hid : id ∈ s.taskIds
  · simp only [hid, if_true]
    rcases ht : s.records id with _ | t
    · exact h
    · by_cases hst : t.status = .PAUSED
      · exact absurd hst (h.noPaused id hid t ht)
      · simp only [hst, if_false]
        exact h
  · simp only [hid, if_false]
    exact h

theorem inv_cancelTask {s : ManagerState} (h : Inv s) (id : String) :
    Inv (cancelTask s id).1 := by
  unfold cancelTask
  by_cases hid : id ∈ s.taskIds
  · simp only [hid, if_true]
    rcases ht : s.records id with _ | t
    · exact h
    · by_cases hst : t.status = .COMPLETED ∨ t.status = .CANCELED
      · simp only [hst, if_true]
        exact h
      · simp only [hst, if_false]
        have hdl : id ∈ (setRecord s id { t with status := .CANCELED }).dlIds :=
          h.dlEq ▸ hid
        simp only [hdl, if_true]
        rcases he : cancelDownload (setRecord s id { t with status := .CANCELED }) id
          with ⟨s₂, raised⟩
        have hco : Inv s₂ := by
          have h' := inv_cancelDownload_setRecord h hid
            ({ t with status := .CANCELED })
          rw [he] at h'
          exact h'
        cases raised
        · exact inv_emitE (inv_eraseActive hco id) _
        · exact hco
  · simp only [hid, if_false]
    exact h

/-- Deleting the (matching) task and downloader dict entries preserves the
invariant; the heap records stay. -/
theorem inv_eraseTask {s : ManagerState} (h : Inv s) (id : String) :
    Inv { s with taskIds := s.taskIds.erase id, dlIds := s.dlIds.erase id } where
  lenLe := h.lenLe
  disj := h.disj
  qNodup := h.qNodup
  tasksWF := fun x hx => h.tasksWF x (List.mem_of_mem_erase hx)
  dlEq := by rw [h.dlEq]
  dlWF := fun x hx => h.dlWF x (List.mem_of_mem_erase hx)
  noPaused := fun x hx => h.noPaused x (List.mem_of_mem_erase hx)
  qRec := h.qRec
  aRec := h.aRec
  spNotQ := h.spNotQ
  spRec := h.spRec
  spLen := h.spLen

theorem inv_removeTask {s : ManagerState} (h : Inv s) (id : String) :
    Inv (removeTask s id).1 := by
  unfold removeTask
  by_cases hid : id ∈ s.taskIds
  · simp only [hid, if_true]
    rcases ht : s.records id with _ | t
    · exact h
    · by_cases hst : t.status = .DOWNLOADING
      · simp only [hst, if_true]
        rcases he : cancelTask s id with ⟨s', r⟩
        have hca : Inv s' := by
          have h' := inv_cancelTask h id
          rw [he] at h'
          exact h'
        cases r with
        | ret b => exact inv_emitE (inv_eraseTask hca id) _
        | raised => exact hca
      · simp only [hst, if_false]
        exact inv_emitE (inv_eraseTask h id) _
  · simp only [hid, if_false]
    exact h

theorem pyEq_status_nat (a : TaskStatus) (n : Nat) :
    pyEq (.pyStatus a) (.pyNat n) = false := rfl

/-- `start_all_tasks` selects nothing: its filter compares the status enum
with an `int` and never matches. -/
theorem startAllWaitingIds_nil (s : ManagerState) :
    startAllWaitingIds s = [] := by
  unfold startAllWaitingIds
  rw [List.filter_eq_nil_iff]
  intro a _
  rcases s.records a with _ | t <;> simp [pyEq_status_nat]

/-- `start_all_tasks` is a no-op: nothing passes its filter. -/
theorem startAllTasks_eq (s : ManagerState) : startAllTasks s = s := by
  unfold startAllTasks
  rw [startAllWaitingIds_nil]
  rfl

theorem taskDone_records (s : ManagerState) :
    (taskDone s).1.records = s.records := by
  unfold taskDone; split <;> rfl

theorem taskDone_active (s : ManagerState) :
    (taskDone s).1.active_tasks = s.active_tasks := by
  unfold taskDone; split <;> rfl

theorem taskDone_events (s : ManagerState) :
    (taskDone s).1.events = s.events := by
  unfold taskDone; split <;> rfl

theorem taskDone_running (s : ManagerState) :
    (taskDone s).1.running = s.running := by
  unfold taskDone; split <;> rfl

/-- Dropping the scheduler's pending popped id preserves the invariant:
the three `sp*` clauses become vacuous. -/
theorem inv_clearSp {s : ManagerState} (h : Inv s) :
    Inv { s with schedPopped := none } :=
  { h with
    spNotQ := by intro x hx; cases hx
    spRec := by intro x hx; cases hx
    spLen := by intro x hx; cases hx }

theorem inv_processPromotePop {s : ManagerState} (h : Inv s) :
    Inv (processPromotePop s) := by
  unfold processPromotePop
  split
  case isFalse => exact h
  case isTrue hlen =>
    rcases hq : s.waiting_queue with _ | ⟨id, rest⟩
    · exact h
    · dsimp only
      have hqn : (id :: rest).Nodup := hq ▸ h.qNodup
      refine { lenLe := h.lenLe, disj := ?_,
               qNodup := (List.nodup_cons.1 hqn).2,
               tasksWF := h.tasksWF, dlEq := h.dlEq, dlWF := h.dlWF,
               noPaused := h.noPaused, qRec := ?_, aRec := h.aRec,
               spNotQ := ?_, spRec := ?_, spLen := ?_ }
      · intro x hx
        have := h.disj x hx
        rw [hq] at this
        intro hr
        exact this (List.mem_cons_of_mem _ hr)
      · intro x hx
        exact h.qRec x (by rw [hq]; exact List.mem_cons_of_mem _ hx)
      · intro x hx
        cases Option.some.inj hx
        exact (List.nodup_cons.1 hqn).1
      · intro x hx
        cases Option.some.inj hx
        exact h.qRec id (by rw [hq]; exact List.mem_cons_self id rest)
      · intro x hx
        cases Option.some.inj hx
        exact hlen

theorem inv_processPromoteRun {s : ManagerState} (h : Inv s) (id : String)
    (hsp : s.schedPopped = some id) : Inv (processPromoteRun s id) := by
  unfold processPromoteRun
  by_cases hcond : id ∈ s.taskIds ∧ statusOf s id = some .WAITING
  · rw [if_pos hcond]
    rcases ht : s.records id with _ | t
    · exact inv_clearSp h
    · dsimp only
      have hlen := h.spLen id hsp
      have hnq := h.spNotQ id hsp
      refine { lenLe := ?_, disj := ?_, qNodup := ?_, tasksWF := ?_,
               dlEq := ?_, dlWF := ?_, noPaused := ?_, qRec := ?_,
               aRec := ?_, spNotQ := ?_, spRec := ?_, spLen := ?_ } <;>
        simp only [emitE, setRecord]
      · simpa using Nat.succ_le_of_lt hlen
      · intro x hx
        rcases List.mem_append.1 hx with hx' | hx'
        · exact h.disj x hx'
        · rw [List.mem_singleton] at hx'
          subst hx'
          exact hnq
      · exact h.qNodup
      · exact fun x hx => upd_isSome _ _ _ _ (h.tasksWF x hx)
      · exact h.dlEq
      · exact fun x hx => h.dlWF x hx
      · intro x hx t' ht'
        rcases eq_or_ne x id with rfl | hne
        · rw [upd_same] at ht'; cases ht'; simp
        · rw [upd_ne _ _ _ _ hne] at ht'
          exact h.noPaused x hx t' ht'
      · exact fun x hx => upd_isSome _ _ _ _ (h.qRec x hx)
      · intro x hx
        rcases List.mem_append.1 hx with hx' | hx'
        · exact upd_isSome _ _ _ _ (h.aRec x hx')
        · rw [List.mem_singleton] at hx'
          subst hx'
          rw [upd_same]; rfl
      · intro x hx
        cases hx
      · intro x hx
        cases hx
      · intro x hx
        cases hx
  · rw [if_neg hcond]
    exact inv_taskDone (inv_clearSp h)

theorem inv_processCheck {s : ManagerState} (h : Inv s) :
    Inv (processCheck s) := by
  unfold processCheck
  split
  · exact inv_emitE h _
  · exact h

theorem inv_workerCheck {s : ManagerState} (h : Inv s) (id : String) :
    Inv (workerCheck s id) := by
  unfold workerCheck
  split <;> exact inv_phases h _

theorem inv_workerSetDownloading {s : ManagerState} (h : Inv s) (id : String) :
    Inv (workerSetDownloading s id) := by
  unfold workerSetDownloading
  rcases ht : s.records id with _ | t
  · exact inv_phases h _
  · exact inv_phases (inv_setRecord_safe h id _ (by simp)) _

theorem inv_workerEntry {s : ManagerState} (h : Inv s) (id : String) :
    Inv (workerEntry s id) := by
  unfold workerEntry
  rcases hd : s.dlRecords id with _ | d
  · exact inv_phases h _
  · by_cases hc : d.is_canceled
    · simp only [hc, if_true]
      exact inv_phases h _
    · simp only [hc, if_false]
      exact inv_phases (inv_setDl h id _) _

theorem inv_workerYdlOk {s : ManagerState} (h : Inv s) (id : String) :
    Inv (workerYdlOk s id) := inv_phases h _

theorem inv_workerYdlRaise {s : ManagerState} (h : Inv s) (id msg : String) :
    Inv (workerYdlRaise s id msg) := by
  unfold workerYdlRaise
  rcases he : onErrorOccurred s id ("下载失败: " ++ msg) with ⟨s₁, raised⟩
  have h₁ : Inv s₁ := by
    have h' := invAt_onError (invAt_of_inv h id) ("下载失败: " ++ msg)
    rw [he] at h'
    exact h'
  cases raised <;> exact inv_phases h₁ _

theorem inv_workerHookError {s : ManagerState} (h : Inv s) (id msg : String) :
    Inv (workerHookError s id msg) := by
  unfold workerHookError
  rcases he : onErrorOccurred s id msg with ⟨s₁, raised⟩
  have h₁ : Inv s₁ := by
    have h' := invAt_onError (invAt_of_inv h id) msg
    rw [he] at h'
    exact h'
  cases raised
  · exact h₁
  · dsimp only
    rcases he₂ : onErrorOccurred s₁ id ("下载失败: " ++ taskDoneMsg) with ⟨s₂, raised₂⟩
    have h₂ : Inv s₂ := by
      have h' := invAt_onError (invAt_of_inv h₁ id) ("下载失败: " ++ taskDoneMsg)
      rw [he₂] at h'
      exact h'
    cases raised₂ <;> exact inv_phases h₂ _

theorem inv_workerProgress {s : ManagerState} (h : Inv s) (id : String)
    (percent : ℚ) (speed : String) : Inv (workerProgress s id percent speed) := by
  unfold workerProgress onProgressUpdated
  by_cases hid : id ∈ s.taskIds
  · simp only [hid, if_true]
    rcases ht : s.records id with _ | t
    · exact h
    · exact inv_emitE (inv_setRecord_sameStatus h ht
        { t with progress := percent, speed := speed } rfl) _
  · simp only [hid, if_false]
    exact h

theorem inv_workerExceptBody {s : ManagerState} (h : Inv s) (id msg : String) :
    Inv (workerExceptBody s id msg) := by
  unfold workerExceptBody
  by_cases hid : id ∈ s.taskIds
  · simp only [hid, if_true]
    rcases ht : s.records id with _ | t
    · exact inv_phases h _
    · exact inv_phases (inv_taskDone (inv_emitE (inv_eraseActive
        (inv_setRecord_safe h id _ (by simp)) id) _)) _
  · simp only [hid, if_false]
    exact inv_phases h _

theorem inv_workerFinish {s : ManagerState} (h : Inv s) (id : String)
    (r : Bool) : Inv (workerFinish s id r) := by
  unfold workerFinish
  by_cases hid : id ∈ s.taskIds
  · simp only [hid, if_true]
    rcases ht : s.records id with _ | t
    · exact inv_phases h _
    · exact inv_phases (inv_eraseActive
        (inv_setRecord_safe h id _ (by simp)) id) _
  · simp only [hid, if_false]
    exact inv_phases h _

theorem inv_workerExcept {s : ManagerState} (h : Inv s) (id msg : String) :
    Inv (workerExcept s id msg) := inv_workerExceptBody h id msg

theorem inv_init (m : Nat) : Inv (initManager m) where
  lenLe := Nat.zero_le m
  disj := by intro id hid; cases hid
  qNodup := List.nodup_nil
  tasksWF := by intro id hid; cases hid
  dlEq := rfl
  dlWF := by intro id hid; cases hid
  noPaused := by intro id hid; cases hid
  qRec := by intro id hid; cases hid
  aRec := by intro id hid; cases hid
  spNotQ := by intro id hid; cases hid
  spRec := by intro id hid; cases hid
  spLen := by intro id hid; cases hid

theorem inv_step {s s' : ManagerState} (h : Inv s) (hs : Step s s') :
    Inv s' := by
  cases hs with
  | add id url vf af sl dir hfresh hdfresh =>
      exact inv_addTask h id url vf af sl dir hfresh
  | pause id => exact inv_pauseTask h id
  | resume id => exact inv_resumeTask h id
  | cancel id => exact inv_cancelTask h id
  | remove id => exact inv_removeTask h id
  | startAll => rw [startAllTasks_eq]; exact h
  | promotePop hsp => exact inv_processPromotePop h
  | promoteRun id hsp => exact inv_processPromoteRun h id hsp
  | check hr hsp => exact inv_processCheck h
  | wCheck id hp => exact inv_workerCheck h id
  | wSetDl id hp => exact inv_workerSetDownloading h id
  | wEntry id hp => exact inv_workerEntry h id
  | wYdlOk id hp => exact inv_workerYdlOk h id
  | wYdlRaise id msg hp => exact inv_workerYdlRaise h id msg
  | wHookErr id msg hp => exact inv_workerHookError h id msg
  | wProgress id percent speed hp => exact inv_workerProgress h id percent speed
  | wFinish id r hp => exact inv_workerFinish h id r
  | wExcept id msg hp => exact inv_workerExcept h id msg
  | stopRunning => exact { h with }

/-- Every reachable manager state satisfies the invariant pack. -/
theorem inv_reachable {m : Nat} {s : ManagerState} (h : Reachable m s) :
    Inv s := by
  induction h with
  | refl => exact inv_init m
  | tail _ hstep ih => exact inv_step ih hstep

/-! ## The claims -/

/-- The guard of the scheduler's quiescence check: no active tasks, empty
queue, at least one task, every task terminal. -/
def Quiescent (s : ManagerState) : Prop :=
  s.active_tasks = [] ∧ s.waiting_queue = [] ∧ s.taskIds ≠ [] ∧
    hasIncomplete s = false

instance (s : ManagerState) : Decidable (Quiescent s) := by
  unfold Quiescent; infer_instance

/-- How many `all_tasks_completed` events the trace holds. -/
def allDoneCount (s : ManagerState) : Nat :=
  s.events.countP fun e => decide (e = Event.all_tasks_completed)

/-- Whether the status of `id`'s record is terminal. -/
def terminalAt (s : ManagerState) (id : String) : Bool :=
  match statusOf s id with
  | some st => st.isTerminal
  | none => false

/-- Whether the trace holds any `task_completed` event at all (it never
does: the emit always raises before delivery). -/
def hasCompleted (s : ManagerState) : Bool :=
  s.events.any fun e =>
    match e with
    | .task_completed _ _ => true
    | _ => false

/-- **C5** (confirmed).  For all reachable states of the manager — over any
interleaving of add, pause, resume, cancel, remove and scheduler/worker
steps — the cardinality of the active-task list is at most
`max_concurrent`: the scheduler is the only appender and it checks
`len(active) < max_concurrent` first. -/
theorem C5_active_bounded (m : Nat) (s : ManagerState) (h : Reachable m s) :
    s.active_tasks.length ≤ s.max_concurrent :=
  (inv_reachable h).lenLe

theorem C5_active_bounded_witness :
    Reachable 2 fl5 ∧ fl5.active_tasks.length ≤ fl5.max_concurrent :=
  ⟨reach_fl5, C5_active_bounded 2 fl5 reach_fl5⟩

/-- **C6** (confirmed).  For all reachable states of the manager, no task id
is simultaneously in the waiting queue and the active list: every
operation preserves the disjointness.  (The induction leans on the facts
that the queue never holds duplicates and that PAUSED is never a stable
status — `resume_task`, the only other enqueuer besides `add_task`, never
fires in a reachable state.) -/
theorem C6_queue_active_disjoint (m : Nat) (s : ManagerState)
    (h : Reachable m s) : ∀ id ∈ s.active_tasks, id ∉ s.waiting_queue :=
  (inv_reachable h).disj

theorem C6_queue_active_disjoint_witness :
    Reachable 1 ok4 ∧ ∀ id ∈ ok4.active_tasks, id ∉ ok4.waiting_queue :=
  ⟨reach_ok4, C6_queue_active_disjoint 1 ok4 reach_ok4⟩

/-- **C1** (corrected), counterexample.  A reachable quiescent state in
which two consecutive scheduler poll iterations emit `all_tasks_completed`
twice: the loop keeps no emitted-before flag, so the event does not fire
"exactly once per quiescent transition". -/
theorem C1_quiescence_counterexample :
    Reachable 1 qs3 ∧ Quiescent qs3 ∧ allDoneCount qs3 = 0 ∧
    allDoneCount (processCheck qs3) = 1 ∧
    allDoneCount (processCheck (processCheck qs3)) = 2 :=
  ⟨reach_qs3, by decide, by decide, by decide, by decide⟩

/-- **C1** (corrected), amended claim: whenever the quiescence condition
holds (all tasks terminal, queue and active list empty), *every* poll
iteration of the scheduling loop emits one further `all_tasks_completed` —
once per poll iteration, not once per quiescent transition. -/
theorem C1_quiescence_emits_every_poll (s : ManagerState) (h : Quiescent s) :
    allDoneCount (processCheck s) = allDoneCount s + 1 := by
  obtain ⟨ha, hq, ht, hi⟩ := h
  unfold processCheck
  rw [if_pos ⟨ha, hq, ht, hi⟩]
  simp [allDoneCount, emitE, List.countP_cons]

theorem C1_quiescence_emits_every_poll_witness :
    Quiescent qs3 ∧ allDoneCount (processCheck qs3) = allDoneCount qs3 + 1 :=
  ⟨by decide, C1_quiescence_emits_every_poll qs3 (by decide)⟩

/-- **C2** (corrected), counterexample.  FAILED is a terminal status, yet
`cancel_task` on a reachable FAILED task returns `True`, not `False`: its
guard only rejects COMPLETED and CANCELED.  The call also overwrites the
recorded error message (the fetcher's cancellation signal is re-handled as
an error), so the state does not stay unchanged either; the status ends
FAILED again because the synchronous error callback overwrites the
transient CANCELED. -/
theorem C2_terminal_ops_counterexample :
    Reachable 2 fl7 ∧ statusOf fl7 "t1" = some .FAILED ∧
    (cancelTask fl7 "t1").2 = .ret true ∧
    ((fl7.records "t1").map (·.error_message) = some "下载失败: boom") ∧
    (((cancelTask fl7 "t1").1.records "t1").map (·.error_message) =
      some "下载已取消") ∧
    statusOf (cancelTask fl7 "t1").1 "t1" = some .FAILED :=
  ⟨reach_fl7, by decide, by decide, by decide, by decide, by decide⟩

/-- **C2** (corrected), amended claim: `pause` and `resume` on a task in a
terminal status return false and leave the state unchanged, and `cancel`
does so for COMPLETED and CANCELED tasks; but `cancel` on a FAILED task
succeeds (returns true), re-signals the fetcher and re-emits failure and
cancellation events, leaving the status FAILED again. -/
theorem C2_terminal_ops (s : ManagerState) (id : String)
    (hid : id ∈ s.taskIds) (hterm : terminalAt s id = true) :
    pauseTask s id = (s, .ret false) ∧ resumeTask s id = (s, .ret false) ∧
    ((statusOf s id = some .COMPLETED ∨ statusOf s id = some .CANCELED) →
      cancelTask s id = (s, .ret false)) := by
  rcases ht : s.records id with _ | t
  · unfold terminalAt statusOf at hterm
    rw [ht] at hterm
    cases hterm
  · have htt : t.status.isTerminal = true := by
      unfold terminalAt statusOf at hterm
      rw [ht] at hterm
      simpa using hterm
    refine ⟨?_, ?_, ?_⟩
    · have hnd : ¬ t.status = .DOWNLOADING := by
        intro hEq
        rw [hEq] at htt
        exact absurd htt (by decide)
      unfold pauseTask
      rw [if_pos hid, ht]
      dsimp only
      rw [if_neg hnd]
    · have hnp : ¬ t.status = .PAUSED := by
        intro hEq
        rw [hEq] at htt
        exact absurd htt (by decide)
      unfold resumeTask
      rw [if_pos hid, ht]
      dsimp only
      rw [if_neg hnp]
    · intro hcc
      have hcc' : t.status = .COMPLETED ∨ t.status = .CANCELED := by
        unfold statusOf at hcc
        rcases hcc with hc | hc
        · rw [ht] at hc
          simp only [Option.map_some'] at hc
          exact Or.inl (Option.some.inj hc)
        · rw [ht] at hc
          simp only [Option.map_some'] at hc
          exact Or.inr (Option.some.inj hc)
      unfold cancelTask
      rw [if_pos hid, ht]
      dsimp only
      rw [if_pos hcc']

theorem C2_terminal_ops_witness :
    ("t1" ∈ fl8.taskIds ∧ terminalAt fl8 "t1" = true ∧
      statusOf fl8 "t1" = some .COMPLETED) ∧
    pauseTask fl8 "t1" = (fl8, .ret false) ∧
    resumeTask fl8 "t1" = (fl8, .ret false) ∧
    cancelTask fl8 "t1" = (fl8, .ret false) := by
  have h := C2_terminal_ops fl8 "t1" (by decide) (by decide)
  exact ⟨⟨by decide, by decide, by decide⟩, h.1, h.2.1,
    h.2.2 (Or.inl (by decide))⟩

/-- The effect of the manager's error callback on a registered task:
FAILED status, the message recorded, one occurrence of the id removed from
the active list, `task_failed` emitted, the scheduler's running flag
untouched. -/
theorem onError_effect (s : ManagerState) (id msg : String)
    (hid : id ∈ s.taskIds) (hsome : (s.records id).isSome = true) :
    statusOf (onErrorOccurred s id msg).1 id = some .FAILED ∧
    ((onErrorOccurred s id msg).1.records id).map (·.error_message) =
      some msg ∧
    (onErrorOccurred s id msg).1.active_tasks = s.active_tasks.erase id ∧
    Event.task_failed id msg ∈ (onErrorOccurred s id msg).1.events ∧
    (onErrorOccurred s id msg).1.running = s.running := by
  rcases ht : s.records id with _ | t
  · rw [ht] at hsome
    cases hsome
  · unfold onErrorOccurred
    rw [if_pos hid, ht]
    dsimp only
    refine ⟨?_, ?_, ?_, ?_, ?_⟩
    · unfold statusOf
      rw [taskDone_records]
      simp [emitE, eraseActive, setRecord, upd_same]
    · rw [taskDone_records]
      simp [emitE, eraseActive, setRecord, upd_same]
    · rw [taskDone_active]
      rfl
    · rw [taskDone_events]
      exact List.mem_cons_self _ _
    · rw [taskDone_running]
      rfl

/-- **C3** (confirmed).  A raising fetch is caught inside
`VideoDownloader.download`, whose except branch synchronously runs the
manager's error callback: the task turns FAILED with `"下载失败: " + msg`
recorded, leaves the active list and `task_failed` is emitted, and the
exception is consumed (`download` returns `False`).  The worker's success
branch then runs on that `False` — but its
`task_completed.emit(task_id, output_path)` raises `TypeError` (bool
payload on a `pyqtSignal(str, str)`), so the transient COMPLETED write is
followed by the worker's own except branch, which ends the task FAILED
with the TypeError text recorded, emits `task_failed` again, and dies in
the worker thread (phase `done`, the scheduling loop untouched).  The task
never ends COMPLETED and `task_completed` never enters the trace — the
first general conjunct covers the fetch-error callback, the second the
worker's except branch, and the closed conjunct traces the full path on
the `fl` run. -/
theorem C3_failed_download_ends_failed :
    (∀ s id msg, id ∈ s.taskIds → (s.records id).isSome = true →
      statusOf (workerYdlRaise s id msg) id = some .FAILED ∧
      ((workerYdlRaise s id msg).records id).map (·.error_message) =
        some ("下载失败: " ++ msg) ∧
      (workerYdlRaise s id msg).active_tasks = s.active_tasks.erase id ∧
      Event.task_failed id ("下载失败: " ++ msg) ∈
        (workerYdlRaise s id msg).events ∧
      (workerYdlRaise s id msg).running = s.running) ∧
    (∀ s id msg, id ∈ s.taskIds → (s.records id).isSome = true →
      statusOf (workerExceptBody s id msg) id = some .FAILED ∧
      ((workerExceptBody s id msg).records id).map (·.error_message) =
        some msg ∧
      (workerExceptBody s id msg).active_tasks = s.active_tasks.erase id ∧
      Event.task_failed id msg ∈ (workerExceptBody s id msg).events ∧
      (workerExceptBody s id msg).phases id = some .done ∧
      (workerExceptBody s id msg).running = s.running) ∧
    (Reachable 2 fl9 ∧
      statusOf fl7 "t1" = some .FAILED ∧
      (fl7.records "t1").map (·.error_message) = some "下载失败: boom" ∧
      statusOf fl9 "t1" = some .FAILED ∧
      (fl9.records "t1").map (·.error_message) = some emitTypeErrMsg ∧
      emitTypeErrMsg ≠ "" ∧ "下载失败: boom" ≠ "" ∧
      "t1" ∉ fl9.active_tasks ∧
      Event.task_failed "t1" "下载失败: boom" ∈ fl9.events ∧
      Event.task_failed "t1" emitTypeErrMsg ∈ fl9.events ∧
      hasCompleted fl8 = false ∧ hasCompleted fl9 = false ∧
      fl9.phases "t1" = some .done ∧
      fl9.running = true) := by
  refine ⟨?_, ?_, ?_⟩
  · intro s id msg hid hsome
    unfold workerYdlRaise
    dsimp only
    rcases he : onErrorOccurred s id ("下载失败: " ++ msg) with ⟨s₁, raised⟩
    have heff := onError_effect s id ("下载失败: " ++ msg) hid hsome
    rw [he] at heff
    cases raised
    · dsimp only
      exact ⟨heff.1, heff.2.1, heff.2.2.1, heff.2.2.2.1, heff.2.2.2.2⟩
    · dsimp only
      exact ⟨heff.1, heff.2.1, heff.2.2.1, heff.2.2.2.1, heff.2.2.2.2⟩
  · intro s id msg hid hsome
    rcases ht : s.records id with _ | t
    · rw [ht] at hsome
      cases hsome
    · unfold workerExceptBody
      rw [if_pos hid, ht]
      dsimp only
      refine ⟨?_, ?_, ?_, ?_, ?_, ?_⟩
      · unfold statusOf
        dsimp only
        rw [taskDone_records]
        simp [emitE, eraseActive, setRecord, upd_same]
      · rw [taskDone_records]
        simp [emitE, eraseActive, setRecord, upd_same]
      · rw [taskDone_active]
        rfl
      · rw [taskDone_events]
        exact List.mem_cons_self _ _
      · rw [upd_same]
      · rw [taskDone_running]
        rfl
  · exact ⟨reach_fl9, by decide, by decide, by decide, by decide, by decide,
      by decide, by decide, by decide, by decide, by decide, by decide,
      by decide, by decide⟩

theorem C3_failed_download_ends_failed_witness :
    ("t1" ∈ fl6.taskIds ∧ (fl6.records "t1").isSome = true) ∧
    statusOf (workerYdlRaise fl6 "t1" "boom") "t1" = some .FAILED ∧
    ("t1" ∈ fl8.taskIds ∧ (fl8.records "t1").isSome = true) ∧
    statusOf (workerExceptBody fl8 "t1" emitTypeErrMsg) "t1" = some .FAILED :=
  ⟨⟨by decide, by decide⟩,
    (C3_failed_download_ends_failed.1 fl6 "t1" "boom"
      (by decide) (by decide)).1,
    ⟨by decide, by decide⟩,
    (C3_failed_download_ends_failed.2.1 fl8 "t1" emitTypeErrMsg
      (by decide) (by decide)).1⟩

/-- **C4** (corrected), counterexample.  `start_all_tasks` compares
`task.status == TaskStatus.WAITING.value` — an enum member against a plain
`int`, which in Python is always `False` — so it never enqueues anything.
`ok2p` is a *reachable* state in which that matters: the scheduler's
unlocked `waiting_queue.get` has just popped the WAITING task `"t1"` into
the loop's local variable, so the task is in the queue of no state
component; `start_all_tasks` leaves it missing from the queue instead of
re-enqueueing it. -/
theorem C4_start_all_counterexample :
    Reachable 1 ok2p ∧ "t1" ∈ ok2p.taskIds ∧
    statusOf ok2p "t1" = some .WAITING ∧ ok2p.waiting_queue = [] ∧
    startAllTasks ok2p = ok2p ∧
    "t1" ∉ (startAllTasks ok2p).waiting_queue := by
  refine ⟨reach_ok2p, by decide, by decide, by decide,
    startAllTasks_eq ok2p, ?_⟩
  rw [startAllTasks_eq]
  decide

/-- **C4** (corrected), amended claim: `start_all_tasks` is a no-op on
every state — its filter (`task.status == TaskStatus.WAITING.value`)
selects nothing, so nothing is ever (re-)enqueued and the state is
returned unchanged. -/
theorem C4_start_all_noop (s : ManagerState) :
    startAllWaitingIds s = [] ∧ startAllTasks s = s :=
  ⟨startAllWaitingIds_nil s, startAllTasks_eq s⟩

/-- **C7** (code_bug).  The claimed success ending does not exist in the
code.  When the fetcher call returns (it returns the bool `True`, not a
path — and the real path never reaches the manager, whose
`download_finished` handler is `pass`), the worker's success branch writes
COMPLETED, progress 100 and the boolean into `output_path` and removes the
id from the active list (`ok7`) — but then
`task_completed.emit(task_id, output_path)` raises `TypeError`: the bool
cannot be marshalled to the second `str` of the `pyqtSignal(str, str)`.
The emit aborts the block before the event is delivered and before the
success branch's `task_done()`; the worker's except branch then ends the
task FAILED with the TypeError text, emits `task_failed`, and only its own
`task_done()` marks the queue entry done (`ok8`).  So of the claim only
the transient COMPLETED/progress/active-removal writes happen:
`task_completed` is never emitted, the recorded "output path" is a bool
for as long as it lasts, and the task ends FAILED. -/
theorem C7_success_emit_typeerror :
    Reachable 1 ok8 ∧
    (statusOf ok7 "t1" = some .COMPLETED ∧
      (ok7.records "t1").map (·.progress) = some 100 ∧
      (ok7.records "t1").map (·.output_path) = some (.vBool true) ∧
      ok7.active_tasks = [] ∧
      hasCompleted ok7 = false ∧
      ok7.unfinished = 1) ∧
    (statusOf ok8 "t1" = some .FAILED ∧
      (ok8.records "t1").map (·.error_message) = some emitTypeErrMsg ∧
      Event.task_failed "t1" emitTypeErrMsg ∈ ok8.events ∧
      hasCompleted ok8 = false ∧
      ok8.unfinished = 0 ∧
      ok8.phases "t1" = some .done) :=
  ⟨reach_ok8, by decide, by decide⟩

/-- **C8** (code_bug).  The claim matches the spec's pause/resume round
trip, but the code breaks it: `pause_task` on a DOWNLOADING task calls
`cancel_download`, whose unconditional `error_occurred.emit("下载已取消")`
synchronously runs `_on_error_occurred`, overwriting the just-set PAUSED
with FAILED.  So after `pause` the task is FAILED (with two events,
`task_failed` then `task_paused`), `resume` — which requires PAUSED —
returns false, nothing is re-enqueued, and the task never re-enters
DOWNLOADING. -/
theorem C8_pause_resume_roundtrip_broken :
    Reachable 1 ok4 ∧ statusOf ok4 "t1" = some .DOWNLOADING ∧
    "t1" ∈ ok4.active_tasks ∧
    (pauseTask ok4 "t1").2 = .ret true ∧
    statusOf pd1 "t1" = some .FAILED ∧
    ((pd1.records "t1").map (·.error_message) = some "下载已取消") ∧
    Event.task_failed "t1" "下载已取消" ∈ pd1.events ∧
    Event.task_paused "t1" ∈ pd1.events ∧
    (resumeTask pd1 "t1").2 = .ret false ∧
    (resumeTask pd1 "t1").1.waiting_queue = [] ∧
    statusOf (resumeTask pd1 "t1").1 "t1" = some .FAILED :=
  ⟨reach_ok4, by decide, by decide, by decide, by decide, by decide,
    by decide, by decide, by decide, by decide, by decide⟩

/-- **C9** (corrected), counterexample.  `get_task` hands back the live
record object: after the manager mutates the task (here: `pause_task`
marking it FAILED), reading through the previously returned reference
yields the new value, so the earlier result did not stay a snapshot. -/
theorem C9_snapshot_counterexample :
    Reachable 1 ok4 ∧ getTask ok4 "t1" = some ⟨"t1"⟩ ∧
    getAllTasks ok4 = [("t1", ⟨"t1"⟩)] ∧
    (derefTask ok4 ⟨"t1"⟩).map (·.status) = some .DOWNLOADING ∧
    (derefTask pd1 ⟨"t1"⟩).map (·.status) = some .FAILED ∧
    derefTask pd1 ⟨"t1"⟩ ≠ derefTask ok4 ⟨"t1"⟩ :=
  ⟨reach_ok4, by decide, by decide, by decide, by decide, by decide⟩

/-- **C9** (corrected), amended claim: `get_task` returns a *reference* to
the live task record and `get_all_tasks` returns a shallow copy of the
dict — the key list is copied but the values are the same references — so
a record write through the manager is visible through any previously
returned reference. -/
theorem C9_live_references (s : ManagerState) (id : String)
    (hid : id ∈ s.taskIds) :
    getTask s id = some ⟨id⟩ ∧ derefTask s ⟨id⟩ = s.records id ∧
    (getAllTasks s).map Prod.fst = s.taskIds ∧
    ∀ t', derefTask (setRecord s id t') ⟨id⟩ = some t' := by
  refine ⟨?_, rfl, ?_, ?_⟩
  · unfold getTask
    rw [if_pos hid]
  · unfold getAllTasks
    rw [List.map_map]
    exact List.map_id _
  · intro t'
    unfold derefTask
    exact upd_same _ _ _

/-- The record written in C9's witness. -/
def c9t : DownloadTask :=
  { id := "t1", url := "u", video_format := some "vf",
    audio_format := some "af", subtitle_lang := none, save_dir := "dir",
    status := .FAILED }

theorem C9_live_references_witness :
    ("t1" ∈ ok4.taskIds) ∧ getTask ok4 "t1" = some ⟨"t1"⟩ ∧
    (getAllTasks ok4).map Prod.fst = ok4.taskIds ∧
    derefTask (setRecord ok4 "t1" c9t) ⟨"t1"⟩ = some c9t := by
  have h := C9_live_references ok4 "t1" (by decide)
  exact ⟨by decide, h.1, h.2.2.1, h.2.2.2 c9t⟩

/-! ### C10: permanence of the cancellation flag

`keepsCanceled f g` says: every downloader that is cancelled under the
binding map `f` is still present and still cancelled under `g`.  The
lemmas below trace `dlRecords` through every operation; most operations
never touch it at all. -/

def keepsCanceled (f g : String → Option VideoDownloader) : Prop :=
  ∀ id d, f id = some d → d.is_canceled = true →
    ∃ d', g id = some d' ∧ d'.is_canceled = true

theorem keepsCanceled_refl (f : String → Option VideoDownloader) :
    keepsCanceled f f :=
  fun _ d hd hc => ⟨d, hd, hc⟩

theorem keepsCanceled_upd_canceled (f : String → Option VideoDownloader)
    (k : String) (d₀ : VideoDownloader) (h : d₀.is_canceled = true) :
    keepsCanceled f (upd f k d₀) := by
  intro x d hd hc
  rcases eq_or_ne x k with rfl | hne
  · exact ⟨d₀, upd_same _ _ _, h⟩
  · exact ⟨d, by rw [upd_ne _ _ _ _ hne]; exact hd, hc⟩

theorem keepsCanceled_upd_same_flag (f : String → Option VideoDownloader)
    (k : String) (d d₀ : VideoDownloader) (hf : f k = some d)
    (h : d₀.is_canceled = d.is_canceled) : keepsCanceled f (upd f k d₀) := by
  intro x dx hx hcx
  rcases eq_or_ne x k with rfl | hne
  · rw [hf] at hx
    cases hx
    exact ⟨d₀, upd_same _ _ _, by rw [h, hcx]⟩
  · exact ⟨dx, by rw [upd_ne _ _ _ _ hne]; exact hx, hcx⟩

theorem keepsCanceled_upd_fresh (f : String → Option VideoDownloader)
    (k : String) (d₀ : VideoDownloader) (hf : f k = none) :
    keepsCanceled f (upd f k d₀) := by
  intro x dx hx hcx
  rcases eq_or_ne x k with rfl | hne
  · rw [hf] at hx
    cases hx
  · exact ⟨dx, by rw [upd_ne _ _ _ _ hne]; exact hx, hcx⟩

theorem taskDone_dlRecords (s : ManagerState) :
    (taskDone s).1.dlRecords = s.dlRecords := by
  unfold taskDone
  split <;> rfl

theorem onError_dlRecords (s : ManagerState) (id msg : String) :
    (onErrorOccurred s id msg).1.dlRecords = s.dlRecords := by
  unfold onErrorOccurred taskDone
  split
  · split
    · dsimp only
      split <;> rfl
    · rfl
  · rfl

theorem cancelDownload_keeps (s : ManagerState) (id : String) :
    keepsCanceled s.dlRecords (cancelDownload s id).1.dlRecords := by
  unfold cancelDownload
  rcases hd : s.dlRecords id with _ | d
  · exact keepsCanceled_refl _
  · rw [onError_dlRecords]
    exact keepsCanceled_upd_canceled _ _ _ rfl

theorem pauseTask_keeps (s : ManagerState) (id : String) :
    keepsCanceled s.dlRecords (pauseTask s id).1.dlRecords := by
  unfold pauseTask
  by_cases hid : id ∈ s.taskIds
  · simp only [hid, if_true]
    rcases ht : s.records id with _ | t
    · exact keepsCanceled_refl _
    · by_cases hst : t.status = .DOWNLOADING
      · simp only [hst, if_true]
        by_cases hdl : id ∈ (setRecord s id { t with status := .PAUSED }).dlIds
        · simp only [hdl, if_true]
          rcases he : cancelDownload (setRecord s id { t with status := .PAUSED }) id
            with ⟨s₂, raised⟩
          have hk : keepsCanceled s.dlRecords s₂.dlRecords := by
            have h' := cancelDownload_keeps (setRecord s id { t with status := .PAUSED }) id
            rw [he] at h'
            exact h'
          cases raised <;> exact hk
        · simp only [hdl, if_false]
          exact keepsCanceled_refl _
      · simp only [hst, if_false]
        exact keepsCanceled_refl _
  · simp only [hid, if_false]
    exact keepsCanceled_refl _

theorem cancelTask_keeps (s : ManagerState) (id : String) :
    keepsCanceled s.dlRecords (cancelTask s id).1.dlRecords := by
  unfold cancelTask
  by_cases hid : id ∈ s.taskIds
  · simp only [hid, if_true]
    rcases ht : s.records id with _ | t
    · exact keepsCanceled_refl _
    · by_cases hst : t.status = .COMPLETED ∨ t.status = .CANCELED
      · simp only [hst, if_true]
        exact keepsCanceled_refl _
      · simp only [hst, if_false]
        by_cases hdl : id ∈ (setRecord s id { t with status := .CANCELED }).dlIds
        · simp only [hdl, if_true]
          rcases he : cancelDownload (setRecord s id { t with status := .CANCELED }) id
            with ⟨s₂, raised⟩
          have hk : keepsCanceled s.dlRecords s₂.dlRecords := by
            have h' := cancelDownload_keeps (setRecord s id { t with status := .CANCELED }) id
            rw [he] at h'
            exact h'
          cases raised <;> exact hk
        · simp only [hdl, if_false]
          exact keepsCanceled_refl _
  · simp only [hid, if_false]
    exact keepsCanceled_refl _

theorem removeTask_keeps (s : ManagerState) (id : String) :
    keepsCanceled s.dlRecords (removeTask s id).1.dlRecords := by
  unfold removeTask
  by_cases hid : id ∈ s.taskIds
  · simp only [hid, if_true]
    rcases ht : s.records id with _ | t
    · exact keepsCanceled_refl _
    · by_cases hst : t.status = .DOWNLOADING
      · simp only [hst, if_true]
        rcases he : cancelTask s id with ⟨s', r⟩
        have hk : keepsCanceled s.dlRecords s'.dlRecords := by
          have h' := cancelTask_keeps s id
          rw [he] at h'
          exact h'
        cases r with
        | ret b => exact hk
        | raised => exact hk
      · simp only [hst, if_false]
        exact keepsCanceled_refl _
  · simp only [hid, if_false]
    exact keepsCanceled_refl _

theorem processPromotePop_dlRecords (s : ManagerState) :
    (processPromotePop s).dlRecords = s.dlRecords := by
  unfold processPromotePop
  split
  · split <;> rfl
  · rfl

theorem processPromoteRun_dlRecords (s : ManagerState) (id : String) :
    (processPromoteRun s id).dlRecords = s.dlRecords := by
  unfold processPromoteRun
  split
  · split <;> rfl
  · rw [taskDone_dlRecords]

theorem processCheck_dlRecords (s : ManagerState) :
    (processCheck s).dlRecords = s.dlRecords := by
  unfold processCheck
  split <;> rfl

theorem workerCheck_dlRecords (s : ManagerState) (id : String) :
    (workerCheck s id).dlRecords = s.dlRecords := by
  unfold workerCheck
  split <;> rfl

theorem workerSetDownloading_dlRecords (s : ManagerState) (id : String) :
    (workerSetDownloading s id).dlRecords = s.dlRecords := by
  unfold workerSetDownloading
  split <;> rfl

theorem workerEntry_keeps (s : ManagerState) (id : String) :
    keepsCanceled s.dlRecords (workerEntry s id).dlRecords := by
  unfold workerEntry
  rcases hd : s.dlRecords id with _ | d
  · exact keepsCanceled_refl _
  · dsimp only
    by_cases hc : d.is_canceled
    · rw [if_pos hc]
      exact keepsCanceled_refl _
    · rw [if_neg hc]
      exact keepsCanceled_upd_same_flag _ _ _ _ hd rfl

theorem workerYdlRaise_dlRecords (s : ManagerState) (id msg : String) :
    (workerYdlRaise s id msg).dlRecords = s.dlRecords := by
  unfold workerYdlRaise
  dsimp only
  split <;> exact onError_dlRecords _ _ _

theorem workerHookError_dlRecords (s : ManagerState) (id msg : String) :
    (workerHookError s id msg).dlRecords = s.dlRecords := by
  unfold workerHookError
  dsimp only
  split
  · split
    · rw [show ({ (onErrorOccurred (onErrorOccurred s id msg).1 id
          ("下载失败: " ++ taskDoneMsg)).1 with
          phases := upd (onErrorOccurred (onErrorOccurred s id msg).1 id
            ("下载失败: " ++ taskDoneMsg)).1.phases id
            (WorkerPhase.excepting taskDoneMsg) } : ManagerState).dlRecords
          = (onErrorOccurred (onErrorOccurred s id msg).1 id
            ("下载失败: " ++ taskDoneMsg)).1.dlRecords from rfl,
        onError_dlRecords, onError_dlRecords]
    · rw [show ({ (onErrorOccurred (onErrorOccurred s id msg).1 id
          ("下载失败: " ++ taskDoneMsg)).1 with
          phases := upd (onErrorOccurred (onErrorOccurred s id msg).1 id
            ("下载失败: " ++ taskDoneMsg)).1.phases id
            (WorkerPhase.finishing false) } : ManagerState).dlRecords
          = (onErrorOccurred (onErrorOccurred s id msg).1 id
            ("下载失败: " ++ taskDoneMsg)).1.dlRecords from rfl,
        onError_dlRecords, onError_dlRecords]
  · exact onError_dlRecords _ _ _

theorem workerProgress_dlRecords (s : ManagerState) (id : String)
    (percent : ℚ) (speed : String) :
    (workerProgress s id percent speed).dlRecords = s.dlRecords := by
  unfold workerProgress onProgressUpdated
  split
  · split <;> rfl
  · rfl

theorem workerExceptBody_dlRecords (s : ManagerState) (id msg : String) :
    (workerExceptBody s id msg).dlRecords = s.dlRecords := by
  unfold workerExceptBody
  split
  · split
    · rw [show ∀ u : ManagerState, ∀ p, ({ u with phases := p } : ManagerState).dlRecords
          = u.dlRecords from fun _ _ => rfl, taskDone_dlRecords]
      rfl
    · rfl
  · rfl

theorem workerFinish_dlRecords (s : ManagerState) (id : String) (r : Bool) :
    (workerFinish s id r).dlRecords = s.dlRecords := by
  unfold workerFinish
  split
  · split <;> rfl
  · rfl

/-- **C10** (corrected), counterexample.  The claim's consequence "a
paused-then-resumed task is rescheduled" is false: pause leaves the task
FAILED (see C8), so resume returns false and nothing is re-enqueued — the
re-run never even starts. -/
theorem C10_pause_resume_counterexample :
    Reachable 1 pd1 ∧
    ((pd1.dlRecords "t1").map (·.is_canceled) = some true) ∧
    (resumeTask pd1 "t1").2 = .ret false ∧
    (resumeTask pd1 "t1").1.waiting_queue = [] ∧
    statusOf pd1 "t1" = some .FAILED :=
  ⟨reach_pd1, by decide, by decide, by decide, by decide⟩

/-- **C10** (corrected), amended claim: once a bound fetcher's
`is_canceled` flag is true it stays true across every transition — no
operation (including `resume_task`, which never touches the downloader
map) resets it or rebinds a fresh fetcher — and a `download()` call on a
cancelled fetcher returns `False` immediately, skipping the reset and the
engine call entirely (no transfer).  What fails in the claim is only its
final consequence: a paused task is never rescheduled at all, because
pause leaves it FAILED and resume then returns false. -/
theorem C10_cancellation_permanent :
    (∀ s s' : ManagerState, Step s s' → ∀ id d, s.dlRecords id = some d →
      d.is_canceled = true →
      ∃ d', s'.dlRecords id = some d' ∧ d'.is_canceled = true) ∧
    (∀ (s : ManagerState) (id : String) (d : VideoDownloader),
      s.dlRecords id = some d → d.is_canceled = true →
      workerEntry s id =
        { s with phases := upd s.phases id (.finishing false) }) := by
  constructor
  · intro s s' hs
    cases hs with
    | add id url vf af sl dir hfresh hdfresh =>
        exact keepsCanceled_upd_fresh _ _ _ hdfresh
    | pause id => exact pauseTask_keeps s id
    | resume id =>
        unfold resumeTask
        by_cases hid : id ∈ s.taskIds
        · simp only [hid, if_true]
          rcases ht : s.records id with _ | t
          · exact keepsCanceled_refl _
          · by_cases hst : t.status = .PAUSED
            · simp only [hst, if_true]
              exact keepsCanceled_refl _
            · simp only [hst, if_false]
              exact keepsCanceled_refl _
        · simp only [hid, if_false]
          exact keepsCanceled_refl _
    | cancel id => exact cancelTask_keeps s id
    | remove id => exact removeTask_keeps s id
    | startAll => rw [startAllTasks_eq]; exact keepsCanceled_refl _
    | promotePop hsp =>
        rw [processPromotePop_dlRecords]; exact keepsCanceled_refl _
    | promoteRun id hsp =>
        rw [processPromoteRun_dlRecords]; exact keepsCanceled_refl _
    | check hr hsp => rw [processCheck_dlRecords]; exact keepsCanceled_refl _
    | wCheck id hp => rw [workerCheck_dlRecords]; exact keepsCanceled_refl _
    | wSetDl id hp =>
        rw [workerSetDownloading_dlRecords]; exact keepsCanceled_refl _
    | wEntry id hp => exact workerEntry_keeps s id
    | wYdlOk id hp => exact keepsCanceled_refl _
    | wYdlRaise id msg hp =>
        rw [workerYdlRaise_dlRecords]; exact keepsCanceled_refl _
    | wHookErr id msg hp =>
        rw [workerHookError_dlRecords]; exact keepsCanceled_refl _
    | wProgress id percent speed hp =>
        rw [workerProgress_dlRecords]; exact keepsCanceled_refl _
    | wFinish id r hp =>
        rw [workerFinish_dlRecords]; exact keepsCanceled_refl _
    | wExcept id msg hp =>
        rw [show (workerExcept s id msg).dlRecords = s.dlRecords from
          workerExceptBody_dlRecords s id msg]
        exact keepsCanceled_refl _
    | stopRunning => exact keepsCanceled_refl _
  · intro s id d hd hc
    unfold workerEntry
    rw [hd]
    dsimp only
    rw [if_pos hc]

/-- The cancelled downloader record bound to `"t1"` in `pd1`. -/
def pd1dl : VideoDownloader := { save_dir := "dir", is_canceled := true }

theorem C10_cancellation_permanent_witness :
    pd1.dlRecords "t1" = some pd1dl ∧ pd1dl.is_canceled = true ∧
    (∃ d', ({ pd1 with running := false } : ManagerState).dlRecords "t1" =
      some d' ∧ d'.is_canceled = true) ∧
    workerEntry pd1 "t1" =
      { pd1 with phases := upd pd1.phases "t1" (.finishing false) } :=
  ⟨by decide, rfl,
    C10_cancellation_permanent.1 pd1 _ (Step.stopRunning pd1) "t1" pd1dl
      (by decide) rfl,
    C10_cancellation_permanent.2 pd1 "t1" pd1dl (by decide) rfl⟩

end YtDd
